import Mathlib

/-!
Verification development for the metadata quality evaluation engine.

The engine is embedded shallowly: each JavaScript function of the core
(rule catalogue construction, normalizer, rule evaluator, score calculator,
recommendation generator) is translated into an executable Lean definition,
and the stated properties of the engine are proved about those definitions.

Conventions of the embedding:
- JavaScript numbers that are always non-negative integers in the source
  (weights, counts, scores) are modelled as `Nat`; arithmetic is exact
  (IEEE-754 double rounding is not modelled).
- `Math.round` of a non-negative quotient is round-half-up, modelled on
  naturals by `jsRound100` and related on rationals to `Nat.floor (q + 1/2)`.
- A thrown exception is modelled by `Except.error`; `NaN` produced by a
  division by zero is modelled by `Option.none`.
- `Array.prototype.sort` is a stable sort; it is modelled by the stable
  insertion sort `jsSort`.
- JavaScript objects are modelled as association lists in key-insertion
  order; assigning `undefined` to a property (which makes every read of it
  behave as absent) is modelled by removing the key.
-/

namespace MQ

set_option maxRecDepth 16384
set_option maxHeartbeats 1000000

/-- The whitespace set of JavaScript (`String.prototype.trim`, regexp `\s`):
space, tab, line/paragraph separators, no-break space, BOM and the Unicode
space separators. -/
def jsWs (c : Char) : Bool :=
  c = ' ' || c = '\t' || c = '\n' || c = '\r' || c = '\x0b' || c = '\x0c' ||
  c = ' ' || c = ' ' || c = ' ' || c = ' ' || c = ' ' ||
  c = ' ' || c = ' ' || c = ' ' || c = ' ' || c = ' ' ||
  c = ' ' || c = ' ' || c = ' ' || c = ' ' || c = ' ' ||
  c = ' ' || c = ' ' || c = '　' || c = '﻿'

/-- Character list form of `String.prototype.trim`: drop leading and trailing
JavaScript whitespace. -/
def jsTrimList (l : List Char) : List Char :=
  ((l.dropWhile jsWs).reverse.dropWhile jsWs).reverse

/-- Model of `String.prototype.trim`. -/
def jsTrim (s : String) : String := ⟨jsTrimList s.data⟩

theorem dropWhile_idem {α : Type} (p : α → Bool) (l : List α) :
    (l.dropWhile p).dropWhile p = l.dropWhile p := by
  induction l with
  | nil => rfl
  | cons a t ih =>
      by_cases h : p a
      · simpa [List.dropWhile, h] using ih
      · simp [List.dropWhile, h]

theorem head?_dropWhile_not {α : Type} (p : α → Bool) (l : List α) :
    ∀ c, (l.dropWhile p).head? = some c → p c = false := by
  induction l with
  | nil => intro c h; simp [List.dropWhile] at h
  | cons a t ih =>
      intro c h
      by_cases hpa : p a
      · exact ih c (by simpa [List.dropWhile, hpa] using h)
      · simp [List.dropWhile, hpa] at h
        subst h
        simpa using hpa

theorem getLast?_dropWhile {α : Type} (p : α → Bool) (l : List α)
    (h : l.dropWhile p ≠ []) : (l.dropWhile p).getLast? = l.getLast? := by
  induction l with
  | nil => simp [List.dropWhile] at h
  | cons a t ih =>
      by_cases hpa : p a
      · have ht : t.dropWhile p ≠ [] := by simpa [List.dropWhile, hpa] using h
        have htne : t ≠ [] := by
          intro he; rw [he] at ht; simp [List.dropWhile] at ht
        rcases t with _ | ⟨b, t'⟩
        · exact absurd rfl htne
        · simpa [List.dropWhile, hpa, List.getLast?_cons_cons] using ih ht
      · simp [List.dropWhile, hpa]

theorem dropWhile_eq_self_of_head? {α : Type} (p : α → Bool) (l : List α)
    (h : ∀ c, l.head? = some c → p c = false) : l.dropWhile p = l := by
  rcases l with _ | ⟨a, t⟩
  · rfl
  · have := h a rfl
    simp [List.dropWhile, this]

theorem jsTrimList_head? (l : List Char) :
    ∀ c, (jsTrimList l).head? = some c → jsWs c = false := by
  intro c hc
  unfold jsTrimList at hc
  rw [List.head?_reverse] at hc
  have hDne : ((l.dropWhile jsWs).reverse).dropWhile jsWs ≠ [] := by
    intro he
    rw [he] at hc; simp at hc
  rw [getLast?_dropWhile jsWs _ hDne, List.getLast?_reverse] at hc
  exact head?_dropWhile_not jsWs l c hc

theorem jsTrimList_idem (l : List Char) : jsTrimList (jsTrimList l) = jsTrimList l := by
  have h1 : (jsTrimList l).dropWhile jsWs = jsTrimList l :=
    dropWhile_eq_self_of_head? jsWs _ (jsTrimList_head? l)
  have h2 : (jsTrimList l).reverse = ((l.dropWhile jsWs).reverse).dropWhile jsWs := by
    unfold jsTrimList; rw [List.reverse_reverse]
  show (((jsTrimList l).dropWhile jsWs).reverse.dropWhile jsWs).reverse = jsTrimList l
  rw [h1, h2, dropWhile_idem, ← h2, List.reverse_reverse]

theorem jsTrim_idem (s : String) : jsTrim (jsTrim s) = jsTrim s := by
  unfold jsTrim
  exact congrArg String.mk (jsTrimList_idem s.data)

/-- ASCII lowercase of one character (`String.prototype.toLowerCase` on the
catalogue's ASCII rule names and categories). -/
def jsLowerChar (c : Char) : Char :=
  if 'A' ≤ c ∧ c ≤ 'Z' then Char.ofNat (c.toNat + 32) else c

/-- Model of `String.prototype.toLowerCase` (ASCII range). -/
def jsToLower (s : String) : String := ⟨s.data.map jsLowerChar⟩

/-- `replace(/\s+/g, '-')` on a character list: every maximal run of
whitespace becomes a single hyphen. The flag records whether the previous
character was part of a whitespace run. -/
def collapseWsAux : Bool → List Char → List Char
  | _, [] => []
  | prevWs, c :: t =>
      if jsWs c then
        if prevWs then collapseWsAux true t
        else '-' :: collapseWsAux true t
      else c :: collapseWsAux false t

/-- Model of `name.replace(/\s+/g, '-')`. -/
def collapseWs (s : String) : String := ⟨collapseWsAux false s.data⟩

/-- JavaScript `x || d` for an optionally-present number: `undefined` and `0`
are falsy and give the default. -/
def jsNumOr (v : Option Nat) (d : Nat) : Nat :=
  match v with
  | some n => if n = 0 then d else n
  | none => d

/-- `Math.round((e / t) * 100)` for naturals with `t > 0`: round half up,
computed as an exact natural division. -/
def jsRound100 (e t : Nat) : Nat := (200 * e + t) / (2 * t)

theorem jsRound100_eq_floor (e t : Nat) (ht : 0 < t) :
    jsRound100 e t = ⌊(100 * e / t : ℚ) + 1/2⌋₊ := by
  have h1 : (100 * e / t : ℚ) + 1/2 = ((200 * e + t : ℕ) : ℚ) / ((2 * t : ℕ) : ℚ) := by
    have ht' : (t : ℚ) ≠ 0 := by positivity
    push_cast
    field_simp
    ring
  rw [jsRound100, h1, Nat.floor_div_nat, Nat.floor_natCast]

theorem jsRound100_le_100 (e t : Nat) (het : e ≤ t) (ht : 0 < t) :
    jsRound100 e t ≤ 100 := by
  unfold jsRound100
  have h1 : 200 * e + t ≤ 201 * t := by omega
  calc (200 * e + t) / (2 * t) ≤ 201 * t / (2 * t) := Nat.div_le_div_right h1
    _ = 201 / 2 := Nat.mul_div_mul_right 201 2 ht
    _ = 100 := by norm_num

/-- Stable insertion used by `jsSort`: an element is placed before the first
element it compares less-or-equal to, so equal keys keep their input order. -/
def jsInsert {α : Type} (le : α → α → Bool) (x : α) : List α → List α
  | [] => [x]
  | y :: ys => if le x y then x :: y :: ys else y :: jsInsert le x ys

/-- Model of `Array.prototype.sort(cmp)` for a consistent comparator, where
`le a b` means `cmp(a, b) <= 0`: the unique stable sort for that key. -/
def jsSort {α : Type} (le : α → α → Bool) : List α → List α
  | [] => []
  | x :: xs => jsInsert le x (jsSort le xs)

theorem mem_jsInsert {α : Type} (le : α → α → Bool) (x a : α) (l : List α) :
    a ∈ jsInsert le x l ↔ a = x ∨ a ∈ l := by
  induction l with
  | nil => simp [jsInsert]
  | cons y ys ih =>
      by_cases h : le x y
      · simp [jsInsert, h]
      · simp [jsInsert, h, ih]
        tauto

theorem mem_jsSort {α : Type} (le : α → α → Bool) (a : α) (l : List α) :
    a ∈ jsSort le l ↔ a ∈ l := by
  induction l with
  | nil => simp [jsSort]
  | cons x xs ih => simp [jsSort, mem_jsInsert, ih]

theorem pairwise_jsInsert {α : Type} (le : α → α → Bool)
    (htr : ∀ a b c, le a b = true → le b c = true → le a c = true)
    (hto : ∀ a b, le a b = true ∨ le b a = true)
    (x : α) (l : List α) (hl : l.Pairwise (fun a b => le a b = true)) :
    (jsInsert le x l).Pairwise (fun a b => le a b = true) := by
  induction l with
  | nil => simp [jsInsert]
  | cons y ys ih =>
      rcases List.pairwise_cons.mp hl with ⟨hy, hys⟩
      by_cases h : le x y
      · have hins : jsInsert le x (y :: ys) = x :: y :: ys := by
          simp [jsInsert, h]
        rw [hins]
        refine List.pairwise_cons.mpr ⟨?_, hl⟩
        intro b hb
        rw [List.mem_cons] at hb
        rcases hb with rfl | hb
        · exact h
        · exact htr x y b h (hy b hb)
      · have hins : jsInsert le x (y :: ys) = y :: jsInsert le x ys := by
          simp [jsInsert, h]
        rw [hins]
        refine List.pairwise_cons.mpr ⟨?_, ih hys⟩
        intro b hb
        rcases (mem_jsInsert le x b ys).mp hb with hbx | hby
        · rw [hbx]
          rcases hto x y with h' | h'
          · exact absurd h' h
          · exact h'
        · exact hy b hby

theorem pairwise_jsSort {α : Type} (le : α → α → Bool)
    (htr : ∀ a b c, le a b = true → le b c = true → le a c = true)
    (hto : ∀ a b, le a b = true ∨ le b a = true)
    (l : List α) : (jsSort le l).Pairwise (fun a b => le a b = true) := by
  induction l with
  | nil => simp [jsSort]
  | cons x xs ih => exact pairwise_jsInsert le htr hto x (jsSort le xs) ih

theorem perm_jsInsert {α : Type} (le : α → α → Bool) (x : α) (l : List α) :
    (jsInsert le x l).Perm (x :: l) := by
  induction l with
  | nil => simp [jsInsert]
  | cons y ys ih =>
      by_cases h : le x y
      · simp [jsInsert, h]
      · have h1 : jsInsert le x (y :: ys) = y :: jsInsert le x ys := by
          simp [jsInsert, h]
        rw [h1]
        exact (ih.cons y).trans (List.Perm.swap x y ys)

theorem perm_jsSort {α : Type} (le : α → α → Bool) (l : List α) :
    (jsSort le l).Perm l := by
  induction l with
  | nil => simp [jsSort]
  | cons x xs ih =>
      exact (perm_jsInsert le x (jsSort le xs)).trans (ih.cons x)

theorem sublist_jsInsert {α : Type} (le : α → α → Bool) (x : α) (m : List α) :
    m.Sublist (jsInsert le x m) := by
  induction m with
  | nil => simp [jsInsert]
  | cons y ys ih =>
      by_cases h : le x y
      · have h1 : jsInsert le x (y :: ys) = x :: y :: ys := by simp [jsInsert, h]
        rw [h1]
        exact List.sublist_cons_of_sublist x (List.Sublist.refl (y :: ys))
      · have h1 : jsInsert le x (y :: ys) = y :: jsInsert le x ys := by
          simp [jsInsert, h]
        rw [h1]
        exact ih.cons₂ y

theorem cons_sublist_jsInsert {α : Type} (le : α → α → Bool) (x : α) :
    ∀ (m t : List α), t.Sublist m → (∀ a ∈ t, le x a = true) →
      (x :: t).Sublist (jsInsert le x m) := by
  intro m
  induction m with
  | nil =>
      intro t ht _
      rw [List.sublist_nil.mp ht]
      simp [jsInsert]
  | cons y ys ih =>
      intro t ht hxa
      by_cases h : le x y
      · have h1 : jsInsert le x (y :: ys) = x :: y :: ys := by simp [jsInsert, h]
        rw [h1]
        exact ht.cons₂ x
      · have h1 : jsInsert le x (y :: ys) = y :: jsInsert le x ys := by
          simp [jsInsert, h]
        rw [h1]
        cases ht with
        | cons _ ht' =>
            exact List.sublist_cons_of_sublist y (ih t ht' hxa)
        | cons₂ _ ht' =>
            exact absurd (hxa y (List.mem_cons_self y _)) h

/-- Stability of `jsSort`: a sublist of pairwise-tied elements keeps its
input order in the sorted output. -/
theorem jsSort_stable {α : Type} (le : α → α → Bool) :
    ∀ (l t : List α), t.Sublist l → (∀ a ∈ t, ∀ b ∈ t, le a b = true) →
      t.Sublist (jsSort le l) := by
  intro l
  induction l with
  | nil =>
      intro t ht _
      rw [List.sublist_nil.mp ht]
      exact List.nil_sublist _
  | cons x xs ih =>
      intro t ht hties
      cases ht with
      | cons _ ht' =>
          exact (ih t ht' hties).trans (sublist_jsInsert le x (jsSort le xs))
      | cons₂ _ ht' =>
          rename_i t'
          have hsub : t'.Sublist (jsSort le xs) :=
            ih t' ht' fun a ha b hb =>
              hties a (List.mem_cons_of_mem x ha) b (List.mem_cons_of_mem x hb)
          exact cons_sublist_jsInsert le x (jsSort le xs) t' hsub
            fun a ha =>
              hties x (List.mem_cons_self x t') a (List.mem_cons_of_mem x ha)

/-- A JSON-like JavaScript value, as far as the metadata engine inspects it:
strings, (integer) numbers, booleans, null, arrays and objects. -/
inductive JVal where
  | str : String → JVal
  | num : Int → JVal
  | bool : Bool → JVal
  | nullv : JVal
  | arr : List JVal → JVal
  | obj : List (String × JVal) → JVal

/-- A JavaScript object in key-insertion order. -/
abbrev RecordJ := List (String × JVal)

/-- Property read `rec[k]`: the first binding of `k`, `none` when absent. -/
def getJ : RecordJ → String → Option JVal
  | [], _ => none
  | (k', v) :: t, k => if k' = k then some v else getJ t k

/-- Property write `rec[k] = v`: replace the binding in place, appending a
new binding when the key is absent (JavaScript objects keep the original
position of an updated key). -/
def setJ : RecordJ → String → JVal → RecordJ
  | [], k, v => [(k, v)]
  | (k', v') :: t, k, v => if k' = k then (k', v) :: t else (k', v') :: setJ t k v

/-- Assignment of `undefined` to a property: every later read behaves as
absent, modelled by removing the key. -/
def delJ : RecordJ → String → RecordJ
  | [], _ => []
  | (k', v) :: t, k => if k' = k then delJ t k else (k', v) :: delJ t k

theorem getJ_setJ_same (rec : RecordJ) (k : String) (v : JVal) :
    getJ (setJ rec k v) k = some v := by
  induction rec with
  | nil => simp [setJ, getJ]
  | cons p t ih =>
      by_cases h : p.1 = k
      · simp [setJ, getJ, h]
      · simp [setJ, getJ, h, ih]

theorem getJ_setJ_ne (rec : RecordJ) (k k' : String) (v : JVal) (h : k ≠ k') :
    getJ (setJ rec k v) k' = getJ rec k' := by
  induction rec with
  | nil => simp [setJ, getJ, h]
  | cons p t ih =>
      by_cases h1 : p.1 = k
      · simp [setJ, getJ, h1, h]
      · by_cases h2 : p.1 = k'
        · simp [setJ, getJ, h1, h2, Ne.symm h]
        · simp [setJ, getJ, h1, h2, ih]

theorem getJ_delJ_same (rec : RecordJ) (k : String) :
    getJ (delJ rec k) k = none := by
  induction rec with
  | nil => simp [delJ, getJ]
  | cons p t ih =>
      by_cases h : p.1 = k
      · simp [delJ, h, ih]
      · simp [delJ, getJ, h, ih]

theorem getJ_delJ_ne (rec : RecordJ) (k k' : String) (h : k ≠ k') :
    getJ (delJ rec k) k' = getJ rec k' := by
  induction rec with
  | nil => simp [delJ]
  | cons p t ih =>
      by_cases h1 : p.1 = k
      · have h2 : p.1 ≠ k' := by rw [h1]; exact h
        simp [delJ, getJ, h1, h2, ih, h]
      · by_cases h2 : p.1 = k'
        · simp [delJ, getJ, h1, h2, Ne.symm h]
        · simp [delJ, getJ, h1, h2, ih]

theorem setJ_self (rec : RecordJ) (k : String) (v : JVal)
    (h : getJ rec k = some v) : setJ rec k v = rec := by
  induction rec with
  | nil => simp [getJ] at h
  | cons p t ih =>
      rcases p with ⟨k', v'⟩
      by_cases h1 : k' = k
      · have h2 : getJ ((k', v') :: t) k = some v' := by simp [getJ, h1]
        have hv : v' = v := by
          rw [h] at h2
          exact (Option.some_inj.mp h2).symm
        simp [setJ, h1, hv]
      · have h2 : getJ t k = some v := by
          rw [getJ, if_neg h1] at h
          exact h
        simp [setJ, h1, ih h2]

/-- JavaScript truthiness of the modelled values. -/
def truthy : JVal → Bool
  | .str s => s ≠ ""
  | .num n => n ≠ 0
  | .bool b => b
  | .nullv => false
  | .arr _ => true
  | .obj _ => true

mutual
/-- JavaScript `String(v)` for the modelled values. -/
def jstr : JVal → String
  | .str s => s
  | .num n => toString n
  | .bool b => if b then "true" else "false"
  | .nullv => "null"
  | .arr xs => String.intercalate "," (jstrList xs)
  | .obj _ => "[object Object]"

/-- Elements of an array under `String(v)`: joined with commas, `null`
rendered as the empty string. -/
def jstrList : List JVal → List String
  | [] => []
  | x :: t => (match x with | .nullv => "" | y => jstr y) :: jstrList t
end

/-- The string fields the normalizer trims (`normalizeMetadata`). -/
def stringFields : List String :=
  ["title", "description", "license", "publisher",
   "methodology", "funding", "spatial_coverage",
   "version", "doi", "access_url", "contact_email"]

/-- The array fields the normalizer cleans (`normalizeMetadata`). -/
def arrayFields : List String :=
  ["authors", "keywords", "data_format", "citations", "related_datasets"]

/-- One step of the string-field loop of `normalizeMetadata`: a string value
is trimmed and an empty trimmed value makes the field absent. -/
def normStrField (rec : RecordJ) (field : String) : RecordJ :=
  match getJ rec field with
  | some (.str s) =>
      if jsTrim s = "" then delJ rec field else setJ rec field (.str (jsTrim s))
  | _ => rec

/-- Element transform of the array-field loop: strings are trimmed, other
elements are kept as they are. -/
def trimIfStr : JVal → JVal
  | .str s => .str (jsTrim s)
  | v => v

/-- Element filter of the array-field loop
(`item !== '' && item !== null && item !== undefined`). -/
def keepElem : JVal → Bool
  | .str s => s ≠ ""
  | .nullv => false
  | _ => true

/-- One step of the array-field loop of `normalizeMetadata`. -/
def normArrField (rec : RecordJ) (field : String) : RecordJ :=
  match getJ rec field with
  | some (.arr xs) =>
      let ys := (xs.map trimIfStr).filter keepElem
      if ys.length = 0 then delJ rec field else setJ rec field (.arr ys)
  | _ => rec

/-- The publication-date step of `normalizeMetadata`, parameterized by the
date canonicalizer `nd`: `nd s` models
`new Date(s)` followed by `toISOString().split('T')[0]`, returning `none`
when the parse yields an invalid date. -/
def normDateField (nd : String → Option String) (rec : RecordJ) : RecordJ :=
  match getJ rec "publication_date" with
  | some v =>
      if truthy v then
        match nd (jsTrim (jstr v)) with
        | some canon => setJ rec "publication_date" (.str canon)
        | none => rec
      else rec
  | none => rec

/-- The body of `normalizeMetadata` on an object's fields: trim the string
fields, clean the array fields, then canonicalize the publication date. -/
def normalizeFields (nd : String → Option String) (fields : RecordJ) : RecordJ :=
  normDateField nd (arrayFields.foldl normArrField (stringFields.foldl normStrField fields))

/-- Model of `normalizeMetadata`: `null` and non-objects give the empty
record; arrays are objects in JavaScript and spread to index-keyed fields. -/
def normalizeMetadata (nd : String → Option String) : JVal → RecordJ
  | .obj fields => normalizeFields nd fields
  | .arr xs => normalizeFields nd (xs.enum.map fun p => (toString p.1, p.2))
  | _ => []

/-- A rule definition of the catalogue, without its check function (the
check functions are pure JavaScript closures; claims about evaluation
quantify over them through `RuleDef`). -/
structure Rule where
  id : String
  name : String
  description : String
  category : String
  severity : String
  weight : Nat
  recommendation : String
deriving DecidableEq

/-- `identificationRules` of `identificationRules.js`. -/
def identificationRules : List Rule := [
  { id := "title-presence", name := "Title Present",
    description := "Dataset must have a title",
    category := "identification", weight := 15, severity := "critical",
    recommendation := "Provide a clear, concise title that describes the dataset content." },
  { id := "title-length", name := "Title Length",
    description := "Title should be at least 10 characters for clarity",
    category := "identification", weight := 8, severity := "warning",
    recommendation := "Expand the title to be more descriptive (at least 10 characters). Include the subject, data type, and scope." },
  { id := "title-not-generic", name := "Title Not Generic",
    description := "Title should not be overly generic",
    category := "identification", weight := 5, severity := "warning",
    recommendation := "Replace generic title with a specific, descriptive name that indicates the dataset content and scope." },
  { id := "authors-presence", name := "Authors Listed",
    description := "Dataset should list at least one author or contributor",
    category := "identification", weight := 10, severity := "important",
    recommendation := "Add at least one author name to establish provenance and enable proper citation." },
  { id := "publisher-presence", name := "Publisher Identified",
    description := "Dataset should identify the publishing organization",
    category := "identification", weight := 6, severity := "warning",
    recommendation := "Add the name of the organization or entity responsible for publishing this dataset." },
  { id := "version-present", name := "Version Specified",
    description := "Dataset should have a version identifier",
    category := "identification", weight := 4, severity := "suggestion",
    recommendation := "Add a version identifier (e.g., \"1.0.0\", \"2024-01\") to track dataset updates and enable reproducibility." },
  { id := "doi-present", name := "DOI Available",
    description := "Dataset should have a Digital Object Identifier for persistent citation",
    category := "identification", weight := 5, severity := "suggestion",
    recommendation := "Register a DOI for this dataset to enable persistent identification and proper citation." }]

/-- `descriptionRules` of `descriptionRules.js`. -/
def descriptionRules : List Rule := [
  { id := "description-presence", name := "Description Present",
    description := "Dataset must have a description",
    category := "description", weight := 12, severity := "critical",
    recommendation := "Add a description explaining what the dataset contains, its purpose, and how it was created." },
  { id := "description-length-minimum", name := "Description Minimum Length",
    description := "Description should be at least 100 characters",
    category := "description", weight := 10, severity := "important",
    recommendation := "Expand the description to at least 100 characters. Include information about the data content, collection methods, and intended use." },
  { id := "description-comprehensive", name := "Description Comprehensive",
    description := "Description should be detailed (at least 250 characters for good quality)",
    category := "description", weight := 6, severity := "suggestion",
    recommendation := "For best quality, expand the description to 250+ characters covering data scope, methodology, temporal/spatial coverage, and limitations." },
  { id := "methodology-present", name := "Methodology Documented",
    description := "Dataset should document collection or processing methodology",
    category := "description", weight := 8, severity := "important",
    recommendation := "Add methodology documentation explaining how the data was collected, processed, and validated." },
  { id := "methodology-detailed", name := "Methodology Detailed",
    description := "Methodology should be sufficiently detailed (at least 50 characters)",
    category := "description", weight := 4, severity := "suggestion",
    recommendation := "Expand methodology to include specific collection instruments, sampling methods, processing steps, and quality assurance measures." },
  { id := "data-format-specified", name := "Data Format Specified",
    description := "Dataset should specify available data formats",
    category := "description", weight := 5, severity := "warning",
    recommendation := "Specify the file formats available for this dataset (e.g., CSV, JSON, Parquet, GeoJSON)." }]

/-- `licenseRules` of `licenseRules.js`. -/
def licenseRules : List Rule := [
  { id := "license-presence", name := "License Present",
    description := "Dataset must specify a license",
    category := "legal", weight := 15, severity := "critical",
    recommendation := "Specify a clear license for the dataset. Consider using a standard SPDX identifier like CC-BY-4.0 or CC0-1.0." },
  { id := "license-spdx-valid", name := "SPDX License Identifier",
    description := "License should use standard SPDX identifier for interoperability",
    category := "legal", weight := 8, severity := "important",
    recommendation := "Use a standard SPDX license identifier (e.g., CC-BY-4.0, MIT, Apache-2.0) for better interoperability and legal clarity." },
  { id := "license-open", name := "Open Data License",
    description := "Dataset should use an open license that permits reuse",
    category := "legal", weight := 5, severity := "suggestion",
    recommendation := "Consider using an open license like CC-BY-4.0 or CC0-1.0 to maximize data reuse and impact." },
  { id := "license-not-restrictive", name := "License Not Overly Restrictive",
    description := "License should not contain ND (NoDerivatives) restriction for maximum usability",
    category := "legal", weight := 3, severity := "suggestion",
    recommendation := "The NoDerivatives (ND) restriction limits how others can build on your data. Consider a less restrictive license for greater impact." },
  { id := "contact-for-licensing", name := "Contact Information for Licensing",
    description := "Dataset should provide contact for licensing questions",
    category := "legal", weight := 4, severity := "suggestion",
    recommendation := "Provide a contact email address for users with licensing questions or data access requests." }]

/-- `keywordRules` of `keywordRules.js`. -/
def keywordRules : List Rule := [
  { id := "keywords-presence", name := "Keywords Present",
    description := "Dataset should have keywords for discoverability",
    category := "description", weight := 8, severity := "important",
    recommendation := "Add keywords that describe the dataset topic, domain, and content to improve discoverability." },
  { id := "keywords-minimum-count", name := "Minimum Keyword Count",
    description := "Dataset should have at least 3 keywords",
    category := "description", weight := 6, severity := "warning",
    recommendation := "Add at least 3 keywords covering: (1) the subject domain, (2) data type or format, (3) geographic or temporal scope." },
  { id := "keywords-not-excessive", name := "Keywords Not Excessive",
    description := "Dataset should not have too many keywords (more than 15 may indicate tag spam)",
    category := "description", weight := 2, severity := "suggestion",
    recommendation := "Reduce keywords to the most relevant 10-15 terms. Excessive tagging can reduce search effectiveness." },
  { id := "keywords-unique", name := "Keywords Unique",
    description := "Keywords should not contain duplicates",
    category := "description", weight := 3, severity := "warning",
    recommendation := "Remove duplicate keywords to maintain clean metadata." },
  { id := "keywords-length", name := "Keyword Quality",
    description := "Keywords should be meaningful (not too short)",
    category := "description", weight := 3, severity := "suggestion",
    recommendation := "Replace very short keywords with more descriptive terms (minimum 3 characters recommended)." },
  { id := "keywords-no-generic", name := "Keywords Specific",
    description := "Keywords should be specific (avoid overly generic terms)",
    category := "description", weight := 3, severity := "suggestion",
    recommendation := "Replace generic keywords like \"data\" or \"dataset\" with more specific domain terms." }]

/-- `provenanceRules` of `provenanceRules.js`. -/
def provenanceRules : List Rule := [
  { id := "publication-date-present", name := "Publication Date Present",
    description := "Dataset should specify publication date",
    category := "provenance", weight := 8, severity := "important",
    recommendation := "Add a publication date in ISO format (YYYY-MM-DD) to establish data currency." },
  { id := "publication-date-valid", name := "Publication Date Valid",
    description := "Publication date should be a valid date",
    category := "provenance", weight := 5, severity := "warning",
    recommendation := "Use a valid date format (YYYY-MM-DD recommended, e.g., 2024-01-15)." },
  { id := "publication-date-not-future", name := "Publication Date Not Future",
    description := "Publication date should not be in the future",
    category := "provenance", weight := 4, severity := "warning",
    recommendation := "Correct the publication date to reflect when the dataset was actually published." },
  { id := "temporal-coverage-present", name := "Temporal Coverage Specified",
    description := "Dataset should specify the time period covered by the data",
    category := "provenance", weight := 5, severity := "suggestion",
    recommendation := "Add temporal coverage information (start_date and end_date) to indicate when the data was collected." },
  { id := "spatial-coverage-present", name := "Spatial Coverage Specified",
    description := "Dataset should specify geographic coverage",
    category := "provenance", weight := 4, severity := "suggestion",
    recommendation := "Add geographic coverage information (e.g., country, region, coordinates) if applicable to the dataset." },
  { id := "funding-present", name := "Funding Acknowledged",
    description := "Dataset should acknowledge funding sources",
    category := "provenance", weight := 4, severity := "suggestion",
    recommendation := "If applicable, add funding source information including grant numbers for transparency and compliance." },
  { id := "access-url-present", name := "Access URL Provided",
    description := "Dataset should provide an access URL",
    category := "provenance", weight := 6, severity := "warning",
    recommendation := "Add an access URL where users can download or access the dataset." },
  { id := "access-url-valid", name := "Access URL Valid Format",
    description := "Access URL should be a valid URL format",
    category := "provenance", weight := 3, severity := "warning",
    recommendation := "Provide a valid HTTP/HTTPS URL (e.g., https://example.com/datasets/my-dataset)." },
  { id := "citations-present", name := "Citations Listed",
    description := "Dataset should list related publications or citations",
    category := "provenance", weight := 3, severity := "suggestion",
    recommendation := "Add related publications, papers, or documentation that describe or use this dataset." }]

/-- `accessibilityRules` of `accessibilityRules.js`. -/
def accessibilityRules : List Rule := [
  { id := "acc-url-present", name := "Access URL Present",
    description := "Dataset must have an access URL",
    category := "provenance", weight := 8, severity := "important",
    recommendation := "Provide a valid HTTP/HTTPS URL where users can access the data." },
  { id := "acc-url-valid", name := "Access URL Valid",
    description := "Access URL must be a valid HTTP/HTTPS URL",
    category := "provenance", weight := 4, severity := "warning",
    recommendation := "Ensure the access URL starts with http:// or https:// and contains no spaces." },
  { id := "acc-format-specified", name := "Data Format Specified",
    description := "Available data formats should be specified",
    category := "description", weight := 6, severity := "important",
    recommendation := "Specify the file formats available (e.g., CSV, JSON, Parquet)." },
  { id := "acc-multiple-formats", name := "Multiple Formats",
    description := "Multiple data formats improve accessibility",
    category := "description", weight := 2, severity := "suggestion",
    recommendation := "Provide data in multiple formats to support different use cases." },
  { id := "acc-open-format", name := "Open Format Available",
    description := "At least one open/standard format should be available",
    category := "description", weight := 4, severity := "warning",
    recommendation := "Include open formats like CSV, JSON, or Parquet." },
  { id := "acc-file-size", name := "File Size Documented",
    description := "File size helps users plan downloads",
    category := "description", weight := 2, severity := "suggestion",
    recommendation := "Document file size for download planning." },
  { id := "acc-language", name := "Language Specified",
    description := "Language of dataset should be specified",
    category := "description", weight := 3, severity := "suggestion",
    recommendation := "Specify the language (e.g., \"en\" for English)." },
  { id := "acc-documentation", name := "Documentation Link",
    description := "Link to documentation or data dictionary",
    category := "description", weight := 6, severity := "important",
    recommendation := "Provide a link to documentation or data dictionary." },
  { id := "acc-record-count", name := "Record Count",
    description := "Number of records should be documented",
    category := "description", weight := 3, severity := "suggestion",
    recommendation := "Document the number of records in the dataset." },
  { id := "acc-api", name := "API Access",
    description := "Programmatic API access enhances accessibility",
    category := "provenance", weight := 2, severity := "suggestion",
    recommendation := "Consider providing API access for programmatic use." }]

/-- `interoperabilityRules` of `interoperabilityRules.js`. -/
def interoperabilityRules : List Rule := [
  { id := "int-schema-defined", name := "Schema Defined",
    description := "Data schema or structure should be defined",
    category := "description", weight := 6, severity := "important",
    recommendation := "Document data structure for interoperability." },
  { id := "int-standard-vocab", name := "Standard Vocabulary",
    description := "Metadata should use standard vocabularies",
    category := "description", weight := 3, severity := "suggestion",
    recommendation := "Consider using Dublin Core, DCAT, or Schema.org vocabularies." },
  { id := "int-date-iso8601", name := "ISO 8601 Dates",
    description := "Dates should follow ISO 8601 format",
    category := "provenance", weight := 4, severity := "warning",
    recommendation := "Use ISO 8601 date format (YYYY-MM-DD)." },
  { id := "int-persistent-id", name := "Persistent Identifier",
    description := "Identifier should be persistent (DOI, ARK, Handle)",
    category := "identification", weight := 6, severity := "important",
    recommendation := "Use DOI, ARK, or Handle for persistent identification." },
  { id := "int-machine-license", name := "Machine-Readable License",
    description := "License should be machine-readable (SPDX or URL)",
    category := "legal", weight := 5, severity := "warning",
    recommendation := "Use SPDX license identifier or provide license URL." },
  { id := "int-encoding", name := "Encoding Specified",
    description := "Character encoding should be specified",
    category := "description", weight := 2, severity := "suggestion",
    recommendation := "Specify character encoding (e.g., UTF-8)." },
  { id := "int-related-resources", name := "Related Resources",
    description := "Related datasets/resources should be linked",
    category := "provenance", weight := 3, severity := "suggestion",
    recommendation := "Link related datasets or resources." },
  { id := "int-version-pattern", name := "Version Pattern",
    description := "Version should follow semantic or date-based pattern",
    category := "identification", weight := 3, severity := "suggestion",
    recommendation := "Use semantic versioning (1.0.0) or date-based versioning." },
  { id := "int-spatial-crs", name := "Spatial Reference",
    description := "Spatial data should specify coordinate reference system",
    category := "provenance", weight := 3, severity := "suggestion",
    recommendation := "Specify coordinate reference system (e.g., WGS84, EPSG code)." },
  { id := "int-namespace", name := "Identifier Namespace",
    description := "Identifier should include organization namespace",
    category := "identification", weight := 2, severity := "suggestion",
    recommendation := "Add organization prefix to identifier for uniqueness." }]

/-- `citationRules` of `citationRules.js`. -/
def citationRules : List Rule := [
  { id := "cit-doi-present", name := "DOI Present",
    description := "Dataset should have a DOI for citation",
    category := "identification", weight := 4, severity := "warning",
    recommendation := "Register a DOI for proper dataset citation." },
  { id := "cit-citation-text", name := "Citation Text",
    description := "Preferred citation text should be provided",
    category := "identification", weight := 3, severity := "suggestion",
    recommendation := "Provide a suggested citation format for users." },
  { id := "cit-author-orcid", name := "Author Identifiers",
    description := "Authors should have ORCID or persistent identifiers",
    category := "identification", weight := 3, severity := "suggestion",
    recommendation := "Add ORCID for authors." },
  { id := "cit-pub-date", name := "Publication Date for Citation",
    description := "Publication date is required for citation",
    category := "provenance", weight := 4, severity := "warning",
    recommendation := "Publication date is required for proper citation." },
  { id := "cit-publisher", name := "Publisher for Citation",
    description := "Publisher/repository should be identified",
    category := "identification", weight := 4, severity := "warning",
    recommendation := "Identify the publisher or hosting repository." },
  { id := "cit-version", name := "Citable Version",
    description := "Version should be specified for precise citation",
    category := "identification", weight := 3, severity := "warning",
    recommendation := "Add version for reproducible citations." },
  { id := "cit-funding", name := "Funding for Citation",
    description := "Funding sources should be acknowledged",
    category := "provenance", weight := 2, severity := "suggestion",
    recommendation := "Acknowledge funding sources if applicable." },
  { id := "cit-publications", name := "Related Publications",
    description := "Related publications should be referenced",
    category := "provenance", weight := 3, severity := "suggestion",
    recommendation := "Link related publications that use this dataset." }]

/-- `reusabilityRules` of `reusabilityRules.js`. -/
def reusabilityRules : List Rule := [
  { id := "reu-license-reuse", name := "License Allows Reuse",
    description := "License should explicitly allow data reuse",
    category := "legal", weight := 6, severity := "important",
    recommendation := "Use open licenses like CC-BY or CC0 for maximum reusability." },
  { id := "reu-methodology", name := "Methodology Documented",
    description := "Data collection methodology should be documented",
    category := "description", weight := 5, severity := "warning",
    recommendation := "Document data collection methodology for reproducibility." },
  { id := "reu-processing", name := "Processing Steps",
    description := "Data processing/cleaning steps should be documented",
    category := "description", weight := 4, severity := "suggestion",
    recommendation := "Document any data processing or cleaning steps." },
  { id := "reu-quality-metrics", name := "Quality Metrics",
    description := "Data quality metrics should be included",
    category := "description", weight := 3, severity := "suggestion",
    recommendation := "Include data quality metrics or validation results." },
  { id := "reu-limitations", name := "Limitations Documented",
    description := "Known limitations should be documented",
    category := "description", weight := 4, severity := "warning",
    recommendation := "Document known limitations, caveats, or issues." },
  { id := "reu-sample-data", name := "Sample Data",
    description := "Sample data or preview should be available",
    category := "description", weight := 2, severity := "suggestion",
    recommendation := "Provide sample data or preview." },
  { id := "reu-update-frequency", name := "Update Frequency",
    description := "Update frequency should be specified",
    category := "provenance", weight := 2, severity := "suggestion",
    recommendation := "Specify update frequency." },
  { id := "reu-intended-use", name := "Intended Use",
    description := "Intended use cases should be documented",
    category := "description", weight := 3, severity := "suggestion",
    recommendation := "Document intended use cases." },
  { id := "reu-variables", name := "Variable Definitions",
    description := "Variable/column definitions should be provided",
    category := "description", weight := 5, severity := "important",
    recommendation := "Provide definitions for all variables/columns." },
  { id := "reu-units", name := "Units Specified",
    description := "Units of measurement should be specified",
    category := "description", weight := 2, severity := "suggestion",
    recommendation := "Specify units of measurement for numeric data." }]

/-- The concatenated rule groups (`rawRules` of `rules/index.js`), in import
order. -/
def rawRules : List Rule :=
  identificationRules ++ descriptionRules ++ licenseRules ++ keywordRules ++
  provenanceRules ++ accessibilityRules ++ interoperabilityRules ++
  citationRules ++ reusabilityRules

/-- The deduplication signature of `deduplicateRules`:
category, hyphen, lowercased name with whitespace runs collapsed to
hyphens. -/
def ruleSignature (r : Rule) : String :=
  r.category ++ "-" ++ collapseWs (jsToLower r.name)

/-- Replace-or-append on an association list (`Map.prototype.set`). -/
def setA {β : Type} : List (String × β) → String → β → List (String × β)
  | [], k, v => [(k, v)]
  | (k', v') :: t, k, v =>
      if k' = k then (k', v) :: t else (k', v') :: setA t k v

/-- One step of `deduplicateRules`: a rule whose signature was already seen
is dropped, unless it has strictly higher weight, in which case it replaces
the seen rule in place (located by the seen rule's id; an unlocatable id
leaves the list unchanged, as the JavaScript `findIndex`/`-1` guard does). -/
def dedupStep (st : List (String × Rule) × List Rule) (rule : Rule) :
    List (String × Rule) × List Rule :=
  match st.1.lookup (ruleSignature rule) with
  | some existing =>
      if existing.weight < rule.weight then
        (setA st.1 (ruleSignature rule) rule,
         st.2.set (st.2.findIdx fun r => r.id = existing.id) rule)
      else st
  | none => (setA st.1 (ruleSignature rule) rule, st.2 ++ [rule])

/-- Model of `deduplicateRules`. -/
def deduplicateRules (rules : List Rule) : List Rule :=
  (rules.foldl dedupStep ([], [])).2

/-- `allRules` of `rules/index.js`: the deduplicated catalogue. -/
def allRules : List Rule := deduplicateRules rawRules

/-- `MAIN_CATEGORIES` of `rules/index.js`. -/
def MAIN_CATEGORIES : List String :=
  ["identification", "description", "legal", "provenance"]

/-- The outcome record one rule evaluation pushes
(`evaluateRules` of `evaluator.js`). -/
structure RuleResult where
  ruleId : String
  ruleName : String
  category : String
  passed : Bool
  value : Option JVal
  message : String

/-- What a rule's check function returns on success; `value` is optional in
the source. -/
structure CheckResult where
  passed : Bool
  value : Option JVal
  message : String

/-- A catalogue rule together with its check function; a thrown exception is
an `Except.error` carrying `error.message`. -/
structure RuleDef where
  rule : Rule
  check : RecordJ → Except String CheckResult

/-- The body of the per-rule loop of `evaluateRules`: a successful check is
copied into the outcome, a thrown check yields a failed outcome with a
diagnostic message (`catch` branch). -/
def evalOneRule (metadata : RecordJ) (rd : RuleDef) : RuleResult :=
  match rd.check metadata with
  | .ok cr =>
      { ruleId := rd.rule.id, ruleName := rd.rule.name, category := rd.rule.category,
        passed := cr.passed, value := cr.value, message := cr.message }
  | .error e =>
      { ruleId := rd.rule.id, ruleName := rd.rule.name, category := rd.rule.category,
        passed := false, value := some .nullv,
        message := "Rule evaluation error: " ++ e }

/-- Model of `evaluateRules`: one outcome per catalogue rule, in catalogue
order. -/
def evaluateRules (rdefs : List RuleDef) (metadata : RecordJ) : List RuleResult :=
  rdefs.map (evalOneRule metadata)

/-- `normalizeCategory` of `scoreCalculator.js`. -/
def normalizeCategory (category : String) : String :=
  let cat := jsToLower category
  if cat ∈ MAIN_CATEGORIES then cat
  else if cat = "accessibility" then "provenance"
  else if cat = "interoperability" then "description"
  else if cat = "citation" then "identification"
  else if cat = "reusability" then "description"
  else "description"

/-- First-match lookup on a string-keyed association list of numbers. -/
def lookupN : List (String × Nat) → String → Option Nat
  | [], _ => none
  | (k', v) :: t, k => if k' = k then some v else lookupN t k

/-- `m[k] || 0`: an object read defaulting an absent key to zero. -/
def lookupD (m : List (String × Nat)) (k : String) : Nat := (lookupN m k).getD 0

/-- `m[k] = (m[k] || 0) + w`: add to a counter key, appending it if absent. -/
def bump : List (String × Nat) → String → Nat → List (String × Nat)
  | [], k, w => [(k, w)]
  | (k', v) :: t, k, w =>
      if k' = k then (k', v + w) :: t else (k', v) :: bump t k w

/-- `if (m[k] !== undefined) m[k] += w`: add only when the key is present. -/
def bumpIfPresent (m : List (String × Nat)) (k : String) (w : Nat) :
    List (String × Nat) :=
  match lookupN m k with
  | some _ => bump m k w
  | none => m

/-- `getTotalWeight` of `rules/index.js`, over an arbitrary catalogue. -/
def getTotalWeightOf (rules : List Rule) : Nat :=
  rules.foldl (fun sum rule => sum + rule.weight) 0

/-- `getCategoryWeights` of `rules/index.js`, over an arbitrary catalogue. -/
def getCategoryWeightsOf (rules : List Rule) : List (String × Nat) :=
  rules.foldl (fun m rule => bumpIfPresent m rule.category rule.weight)
    (MAIN_CATEGORIES.map fun c => (c, 0))

/-- The score breakdown `calculateScores` returns (its `details` object is
flattened into the last four fields). -/
structure Scores where
  overall_score : Nat
  categories : List (String × Nat)
  total_weight : Nat
  total_earned : Nat
  category_weights : List (String × Nat)
  category_earned : List (String × Nat)

/-- The body of the earned-points loop of `calculateScores`: an outcome whose
rule id is not in the catalogue is skipped; a passed outcome adds the rule's
weight to the total and to its normalized category. -/
def scoreStep (rules : List Rule) (acc : Nat × List (String × Nat))
    (result : RuleResult) : Nat × List (String × Nat) :=
  match rules.find? (fun r => decide (r.id = result.ruleId)) with
  | none => acc
  | some rule =>
      if result.passed then
        (acc.1 + rule.weight,
         bump acc.2 (normalizeCategory rule.category) rule.weight)
      else acc

/-- Model of `calculateScores`, over an arbitrary catalogue. -/
def calculateScoresOf (rules : List Rule) (ruleResults : List RuleResult) :
    Scores :=
  let totalWeight := getTotalWeightOf rules
  let categoryWeights := getCategoryWeightsOf rules
  let categoryMax := MAIN_CATEGORIES.map fun c => (c, lookupD categoryWeights c)
  let acc := ruleResults.foldl (scoreStep rules)
    (0, MAIN_CATEGORIES.map fun c => (c, 0))
  { overall_score := if 0 < totalWeight then jsRound100 acc.1 totalWeight else 0
    categories := MAIN_CATEGORIES.map fun c =>
      let mx := lookupD categoryMax c
      (c, if 0 < mx then jsRound100 (lookupD acc.2 c) mx else 100)
    total_weight := totalWeight
    total_earned := acc.1
    category_weights := categoryWeights
    category_earned := acc.2 }

/-- The grade object `getScoreGrade` returns; its `grade` field is the
letter. -/
structure GradeInfo where
  grade : String
  label : String
  description : String
  color : String
deriving DecidableEq

/-- Model of `getScoreGrade` (scores are naturals in this embedding). -/
def getScoreGrade (score : Nat) : GradeInfo :=
  if 90 ≤ score then
    ⟨"A", "Excellent",
     "Metadata quality is excellent and meets or exceeds all standards.",
     "#22c55e"⟩
  else if 80 ≤ score then
    ⟨"B", "Good",
     "Metadata quality is good with minor improvements recommended.",
     "#84cc16"⟩
  else if 70 ≤ score then
    ⟨"C", "Acceptable",
     "Metadata quality is acceptable but could benefit from improvements.",
     "#eab308"⟩
  else if 60 ≤ score then
    ⟨"D", "Needs Improvement",
     "Metadata quality needs improvement to meet recommended standards.",
     "#f97316"⟩
  else
    ⟨"F", "Poor",
     "Metadata quality is poor and requires significant improvements.",
     "#ef4444"⟩

/-- Model of `getCategoryPriority`: category scores sorted ascending. -/
def getCategoryPriority (categoryScores : List (String × Nat)) :
    List (String × Nat) :=
  jsSort (fun a b => decide (a.2 ≤ b.2)) categoryScores

/-- `SEVERITY_WEIGHTS` of `recommendations/generator.js`; `none` models an
undefined lookup. -/
def SEVERITY_WEIGHTS (s : String) : Option Nat :=
  if s = "critical" then some 4
  else if s = "important" then some 3
  else if s = "warning" then some 2
  else if s = "suggestion" then some 1
  else none

/-- The `severityOrder` table local to `getImprovementPotential`. -/
def severityOrder (s : String) : Option Nat :=
  if s = "critical" then some 0
  else if s = "important" then some 1
  else if s = "warning" then some 2
  else if s = "suggestion" then some 3
  else none

/-- JavaScript `a || d` for an optionally-present string: `undefined` and
the empty string are falsy. -/
def jsStrOr (v : Option String) (d : String) : String :=
  match v with
  | some s => if s = "" then d else s
  | none => d

/-- An entry of `getImprovementPotential`. -/
structure Improvement where
  ruleId : String
  name : String
  weight : Nat
  severity : String
  message : String
  recommendation : String
deriving DecidableEq

/-- The comparator of `getImprovementPotential` as a less-or-equal test.
Note `severityOrder[s] || 3` maps the `critical` rank `0` (falsy) to `3`. -/
def impLe (a b : Improvement) : Bool :=
  let ka := jsNumOr (severityOrder a.severity) 3
  let kb := jsNumOr (severityOrder b.severity) 3
  decide (ka < kb) || (decide (ka = kb) && decide (b.weight ≤ a.weight))

/-- Model of `getImprovementPotential`, over an arbitrary catalogue. -/
def getImprovementPotential (rules : List Rule)
    (ruleResults : List RuleResult) : List Improvement :=
  jsSort impLe
    ((ruleResults.filter fun r => !r.passed).map fun result =>
      let rule? := rules.find? fun r => decide (r.id = result.ruleId)
      { ruleId := result.ruleId
        name := jsStrOr (rule?.map (·.name)) result.ruleId
        weight := jsNumOr (rule?.map (·.weight)) 0
        severity := jsStrOr (rule?.map (·.severity)) "suggestion"
        message := result.message
        recommendation := jsStrOr (rule?.map (·.recommendation))
          "Review and improve this field." })

/-- The `summary` object of `calculateScoreSummary`; `pass_rate` is `none`
when the unguarded `passed / total_rules` division is `0 / 0 = NaN`. -/
structure SummaryCounts where
  total_rules : Nat
  passed : Nat
  failed : Nat
  pass_rate : Option Nat
deriving DecidableEq

/-- The full result of `calculateScoreSummary`. -/
structure ScoreSummary where
  scores : Scores
  grade : GradeInfo
  summary : SummaryCounts
  category_priority : List (String × Nat)
  top_improvements : List Improvement

/-- Model of `calculateScoreSummary`, over an arbitrary catalogue. -/
def calculateScoreSummary (rules : List Rule) (ruleResults : List RuleResult) :
    ScoreSummary :=
  let scores := calculateScoresOf rules ruleResults
  let passedCount := (ruleResults.filter fun r => r.passed).length
  let failedCount := (ruleResults.filter fun r => !r.passed).length
  { scores := scores
    grade := getScoreGrade scores.overall_score
    summary :=
      { total_rules := ruleResults.length
        passed := passedCount
        failed := failedCount
        pass_rate :=
          if ruleResults.length = 0 then none
          else some (jsRound100 passedCount ruleResults.length) }
    category_priority := getCategoryPriority scores.categories
    top_improvements := (getImprovementPotential rules ruleResults).take 5 }

/-- The steps of `evaluateMetadata` that produce its scores: normalize, run
the rules, aggregate (schema validation, recommendations and timing do not
feed back into the scores). -/
def evaluateMetadataScores (rdefs : List RuleDef)
    (nd : String → Option String) (raw : JVal) : ScoreSummary :=
  calculateScoreSummary (rdefs.map (·.rule))
    (evaluateRules rdefs (normalizeMetadata nd raw))

/-- `CATEGORY_NAMES` of `recommendations/generator.js`. -/
def CATEGORY_NAMES (s : String) : Option String :=
  if s = "identification" then some "Identification & Attribution"
  else if s = "description" then some "Description & Discoverability"
  else if s = "legal" then some "Legal & Licensing"
  else if s = "provenance" then some "Provenance & Access"
  else none

/-- A failed outcome enriched with its rule's data
(`generateRecommendations`). -/
structure Enriched where
  ruleId : String
  ruleName : String
  category : String
  passed : Bool
  value : Option JVal
  message : String
  weight : Nat
  severity : String
  recommendation : String
  priorityScore : Nat

/-- `calculatePriorityScore`: weight times the severity multiplier, with an
unknown severity multiplier defaulting to 1 and a missing rule scoring 0. -/
def calculatePriorityScore (rule? : Option Rule) : Nat :=
  match rule? with
  | none => 0
  | some rule =>
      jsNumOr (some rule.weight) 0 * jsNumOr (SEVERITY_WEIGHTS rule.severity) 1

/-- The enrichment step of `generateRecommendations`. -/
def enrichOne (rules : List Rule) (result : RuleResult) : Enriched :=
  let rule? := rules.find? fun r => decide (r.id = result.ruleId)
  { ruleId := result.ruleId
    ruleName := jsStrOr (rule?.map (·.name)) result.ruleId
    category := jsStrOr (rule?.map (·.category)) "unknown"
    passed := result.passed
    value := result.value
    message := result.message
    weight := jsNumOr (rule?.map (·.weight)) 0
    severity := jsStrOr (rule?.map (·.severity)) "suggestion"
    recommendation := jsStrOr (rule?.map (·.recommendation))
      "Review and improve this field."
    priorityScore := calculatePriorityScore rule? }

/-- The priority comparator of `generateRecommendations` as a less-or-equal
test: descending `priorityScore`. -/
def enrichedLe (a b : Enriched) : Bool := decide (b.priorityScore ≤ a.priorityScore)

/-- `generateSummary` of `recommendations/generator.js`. -/
def generateSummary (failedResults : List Enriched) : String :=
  let criticalCount := (failedResults.filter fun r => decide (r.severity = "critical")).length
  let importantCount := (failedResults.filter fun r => decide (r.severity = "important")).length
  let warningCount := (failedResults.filter fun r => decide (r.severity = "warning")).length
  let suggestionCount := (failedResults.filter fun r => decide (r.severity = "suggestion")).length
  let parts :=
    (if 0 < criticalCount then [toString criticalCount ++ " critical"] else []) ++
    (if 0 < importantCount then [toString importantCount ++ " important"] else []) ++
    (if 0 < warningCount then
      [toString warningCount ++ " warning" ++ (if 1 < warningCount then "s" else "")] else []) ++
    (if 0 < suggestionCount then
      [toString suggestionCount ++ " suggestion" ++ (if 1 < suggestionCount then "s" else "")] else [])
  if parts.length = 0 then "No issues found. Metadata quality is excellent!"
  else
    "Found " ++ toString failedResults.length ++ " issue" ++
    (if 1 < failedResults.length then "s" else "") ++ ": " ++
    String.intercalate ", " parts ++ "."

/-- An item of a category bucket of the grouped recommendations. -/
structure CatItem where
  rule : String
  severity : String
  issue : String
  recommendation : String
  weight : Nat
  isPriority : Bool
deriving DecidableEq

/-- A category bucket of the grouped recommendations. -/
structure CatGroup where
  category : String
  displayName : String
  items : List CatItem
  totalIssues : Nat
  criticalCount : Nat
  importantCount : Nat
deriving DecidableEq

/-- An entry of `priorityActions`. -/
structure PriorityAction where
  action : String
  impact : String
  severity : String
  category : String
deriving DecidableEq

/-- An entry of the flat recommendation list. -/
structure FlatRec where
  priority : Nat
  rule : String
  category : String
  severity : String
  issue : String
  action : String
  potentialGain : Nat
deriving DecidableEq

/-- The two output shapes of `generateRecommendations`. -/
inductive Recs where
  | grouped (categories : List CatGroup) (summary : String)
      (priorityActions : List PriorityAction)
  | flat (recommendations : List FlatRec) (summary : String) (totalIssues : Nat)

/-- The category-bucket comparator as a less-or-equal test: descending
urgency `criticalCount * 4 + importantCount * 2`. -/
def groupLe (a b : CatGroup) : Bool :=
  decide (b.criticalCount * 4 + b.importantCount * 2 ≤
          a.criticalCount * 4 + a.importantCount * 2)

/-- The in-bucket item comparator as a less-or-equal test: descending
severity multiplier (`SEVERITY_WEIGHTS[s] || 0`), then descending weight. -/
def itemLe (a b : CatItem) : Bool :=
  let wa := jsNumOr (SEVERITY_WEIGHTS a.severity) 0
  let wb := jsNumOr (SEVERITY_WEIGHTS b.severity) 0
  decide (wb < wa) || (decide (wb = wa) && decide (b.weight ≤ a.weight))

/-- The item pushed into a category bucket. -/
def catItemOf (topResults : List Enriched) (result : Enriched) : CatItem :=
  { rule := result.ruleName
    severity := result.severity
    issue := result.message
    recommendation := result.recommendation
    weight := result.weight
    isPriority := topResults.any fun r => decide (r.ruleId = result.ruleId) }

/-- Push one item into its bucket and update the bucket counters. -/
def bumpGroup (item : CatItem) (result : Enriched) (g : CatGroup) : CatGroup :=
  { g with
    items := g.items ++ [item]
    totalIssues := g.totalIssues + 1
    criticalCount := g.criticalCount + (if result.severity = "critical" then 1 else 0)
    importantCount := g.importantCount + (if result.severity = "important" then 1 else 0) }

/-- Find-or-create a bucket by category in first-seen order and apply `f`. -/
def updateGroups (f : CatGroup → CatGroup) (cat dn : String) :
    List CatGroup → List CatGroup
  | [] => [f { category := cat, displayName := dn, items := [],
               totalIssues := 0, criticalCount := 0, importantCount := 0 }]
  | g :: t => if g.category = cat then f g :: t else g :: updateGroups f cat dn t

/-- One step of the `byCategory` accumulation of
`generateGroupedRecommendations`. -/
def groupedStep (topResults : List Enriched) (groups : List CatGroup)
    (result : Enriched) : List CatGroup :=
  updateGroups (bumpGroup (catItemOf topResults result) result) result.category
    (jsStrOr (CATEGORY_NAMES result.category) result.category) groups

/-- Model of `generateGroupedRecommendations`. -/
def generateGroupedRecommendations (topResults allFailedResults : List Enriched) :
    Recs :=
  let byCategory := allFailedResults.foldl (groupedStep topResults) []
  let sortedCategories := (jsSort groupLe byCategory).map fun g =>
    { g with items := jsSort itemLe g.items }
  .grouped sortedCategories (generateSummary allFailedResults)
    (topResults.map fun r =>
      { action := r.recommendation
        impact := "+" ++ toString r.weight ++ " points"
        severity := r.severity
        category := r.category })

/-- The projection of a ranked enriched outcome into a flat entry at its
1-based rank. -/
def projFlat (p : Nat × Enriched) : FlatRec :=
  { priority := p.1 + 1
    rule := p.2.ruleName
    category := p.2.category
    severity := p.2.severity
    issue := p.2.message
    action := p.2.recommendation
    potentialGain := p.2.weight }

/-- Model of `generateFlatRecommendations`. -/
def generateFlatRecommendations (topResults allFailedResults : List Enriched) :
    Recs :=
  .flat (topResults.enum.map projFlat)
    (generateSummary allFailedResults) allFailedResults.length

/-- Model of `generateRecommendations`, over an arbitrary catalogue. -/
def generateRecommendations (rules : List Rule) (ruleResults : List RuleResult)
    (maxRecommendations : Nat) (groupByCategory : Bool) : Recs :=
  let failedResults := ruleResults.filter fun r => !r.passed
  let sortedResults := jsSort enrichedLe (failedResults.map (enrichOne rules))
  let topResults := sortedResults.take maxRecommendations
  if groupByCategory then generateGroupedRecommendations topResults sortedResults
  else generateFlatRecommendations topResults sortedResults

/-- The enrichment of `generateSimpleRecommendations` (no name or category
override, no priority score). -/
structure SimpleRec where
  ruleId : String
  ruleName : String
  category : String
  passed : Bool
  value : Option JVal
  message : String
  weight : Nat
  severity : String
  recommendation : String

/-- The comparator of `generateSimpleRecommendations` as a less-or-equal
test: descending severity multiplier, then descending weight. -/
def simpleLe (a b : SimpleRec) : Bool :=
  let wa := jsNumOr (SEVERITY_WEIGHTS a.severity) 0
  let wb := jsNumOr (SEVERITY_WEIGHTS b.severity) 0
  decide (wb < wa) || (decide (wb = wa) && decide (b.weight ≤ a.weight))

/-- The enrichment step of `generateSimpleRecommendations`. -/
def simpleEnrichOne (rules : List Rule) (result : RuleResult) : SimpleRec :=
  let rule? := rules.find? fun r => decide (r.id = result.ruleId)
  { ruleId := result.ruleId
    ruleName := result.ruleName
    category := result.category
    passed := result.passed
    value := result.value
    message := result.message
    weight := jsNumOr (rule?.map (·.weight)) 0
    severity := jsStrOr (rule?.map (·.severity)) "suggestion"
    recommendation := jsStrOr (rule?.map (·.recommendation))
      "Review and improve this field." }

/-- Model of `generateSimpleRecommendations`, over an arbitrary catalogue. -/
def generateSimpleRecommendations (rules : List Rule)
    (ruleResults : List RuleResult) (limit : Nat) : List String :=
  let failedResults := ruleResults.filter fun r => !r.passed
  let enriched := failedResults.map (simpleEnrichOne rules)
  ((jsSort simpleLe enriched).take limit).map (·.recommendation)

/-! ### Specification-side sums for the scoring algorithm -/

/-- The catalogue value of an outcome's rule under projection `f`:
the projection of the first catalogue rule with that id, `0` when the id is
not in the catalogue. -/
def ruleValOfId (f : Rule → Nat) (rules : List Rule) (id : String) : Nat :=
  match rules.find? (fun r => decide (r.id = id)) with
  | some r => f r
  | none => 0

/-- The catalogue weight behind an outcome's rule id. -/
def weightOfId (rules : List Rule) (id : String) : Nat :=
  ruleValOfId (·.weight) rules id

theorem getTotalWeightOf_eq (rules : List Rule) :
    getTotalWeightOf rules = (rules.map (·.weight)).sum := by
  suffices h : ∀ (l : List Rule) (a : Nat),
      l.foldl (fun sum rule => sum + rule.weight) a = a + (l.map (·.weight)).sum by
    simpa [getTotalWeightOf] using h rules 0
  intro l
  induction l with
  | nil => intro a; simp
  | cons r t ih =>
      intro a
      simp [List.foldl_cons, ih, Nat.add_assoc]

theorem lookupN_bump (m : List (String × Nat)) (k c : String) (w : Nat) :
    lookupN (bump m k w) c =
      if k = c then some ((lookupN m c).getD 0 + w) else lookupN m c := by
  induction m with
  | nil =>
      by_cases h : k = c
      · simp [bump, lookupN, h]
      · simp [bump, lookupN, h]
  | cons p t ih =>
      rcases p with ⟨k', v⟩
      by_cases h1 : k' = k
      · subst h1
        by_cases h2 : k' = c
        · subst h2
          simp [bump, lookupN]
        · simp [bump, lookupN, h2]
      · by_cases h2 : k' = c
        · subst h2
          have h3 : ¬k = k' := fun h => h1 h.symm
          simp [bump, lookupN, h1, h3]
        · by_cases h4 : k = c
          · subst h4
            simp [bump, lookupN, h1, h2, ih]
          · simp [bump, lookupN, h1, h2, h4, ih]

theorem lookupD_bump (m : List (String × Nat)) (k c : String) (w : Nat) :
    lookupD (bump m k w) c = lookupD m c + if k = c then w else 0 := by
  by_cases h : k = c <;> simp [lookupD, lookupN_bump, h]

/-- Per-outcome contribution of `scoreStep` to a normalized-category
counter. -/
def catContrib (rules : List Rule) (c : String) (res : RuleResult) : Nat :=
  if res.passed then
    ruleValOfId (fun r => if normalizeCategory r.category = c then r.weight else 0)
      rules res.ruleId
  else 0

theorem scoreFold_fst (rules : List Rule) (results : List RuleResult) :
    ∀ (a : Nat) (m : List (String × Nat)),
      (results.foldl (scoreStep rules) (a, m)).1 =
        a + (results.map fun res =>
              if res.passed then weightOfId rules res.ruleId else 0).sum := by
  induction results with
  | nil => intro a m; simp
  | cons res t ih =>
      intro a m
      rcases hf : rules.find? (fun r => decide (r.id = res.ruleId)) with _ | rule
      · have hw : weightOfId rules res.ruleId = 0 := by
          simp [weightOfId, ruleValOfId, hf]
        by_cases hp : res.passed
        · simp [List.foldl_cons, scoreStep, hf, ih, hw, hp]
        · simp [List.foldl_cons, scoreStep, hf, ih, hw, hp]
      · have hw : weightOfId rules res.ruleId = rule.weight := by
          simp [weightOfId, ruleValOfId, hf]
        by_cases hp : res.passed
        · simp [List.foldl_cons, scoreStep, hf, hp, ih, hw, Nat.add_assoc]
        · simp [List.foldl_cons, scoreStep, hf, hp, ih, hw]

theorem scoreFold_snd (rules : List Rule) (c : String) (results : List RuleResult) :
    ∀ (a : Nat) (m : List (String × Nat)),
      lookupD (results.foldl (scoreStep rules) (a, m)).2 c =
        lookupD m c + (results.map (catContrib rules c)).sum := by
  induction results with
  | nil => intro a m; simp
  | cons res t ih =>
      intro a m
      rcases hf : rules.find? (fun r => decide (r.id = res.ruleId)) with _ | rule
      · have hw : catContrib rules c res = 0 := by
          simp [catContrib, ruleValOfId, hf]
        by_cases hp : res.passed
        · simp [List.foldl_cons, scoreStep, hf, ih, hw, hp]
        · simp [List.foldl_cons, scoreStep, hf, ih, hw, hp]
      · by_cases hp : res.passed
        · have hw : catContrib rules c res =
              if normalizeCategory rule.category = c then rule.weight else 0 := by
            simp [catContrib, ruleValOfId, hf, hp]
          simp [List.foldl_cons, scoreStep, hf, hp, ih, lookupD_bump, hw]
          by_cases hc : normalizeCategory rule.category = c
          · simp [hc]
            omega
          · simp [hc]
        · have hw : catContrib rules c res = 0 := by simp [catContrib, hp]
          simp [List.foldl_cons, scoreStep, hf, hp, ih, hw]

theorem lookupN_map_self (L : List String) (g : String → Nat) (cat : String)
    (h : cat ∈ L) :
    lookupN (L.map fun c => (c, g c)) cat = some (g cat) := by
  induction L with
  | nil => simp at h
  | cons c t ih =>
      by_cases hc : c = cat
      · simp [lookupN, hc]
      · have ht : cat ∈ t := by
          rcases List.mem_cons.mp h with h1 | h1
          · exact absurd h1.symm hc
          · exact h1
        simp [lookupN, hc, ih ht]

theorem lookupD_map_self (L : List String) (g : String → Nat) (cat : String)
    (h : cat ∈ L) :
    lookupD (L.map fun c => (c, g c)) cat = g cat := by
  simp [lookupD, lookupN_map_self L g cat h]

theorem isSome_lookupN_bump (m : List (String × Nat)) (k c : String) (w : Nat)
    (h : (lookupN m c).isSome) : (lookupN (bump m k w) c).isSome := by
  rw [lookupN_bump]
  by_cases hkc : k = c
  · simp [hkc]
  · simpa [hkc] using h

theorem isSome_lookupN_bumpIfPresent (m : List (String × Nat)) (k c : String)
    (w : Nat) (h : (lookupN m c).isSome) :
    (lookupN (bumpIfPresent m k w) c).isSome := by
  unfold bumpIfPresent
  rcases hk : lookupN m k with _ | v
  · exact h
  · exact isSome_lookupN_bump m k c w h

theorem lookupD_bumpIfPresent (m : List (String × Nat)) (k c : String) (w : Nat)
    (hc : (lookupN m c).isSome) :
    lookupD (bumpIfPresent m k w) c = lookupD m c + if k = c then w else 0 := by
  unfold bumpIfPresent
  rcases hk : lookupN m k with _ | v
  · by_cases hkc : k = c
    · rw [hkc] at hk
      rw [hk] at hc
      simp at hc
    · simp [hkc]
  · exact lookupD_bump m k c w

theorem catWeightsFold (cat : String) (rules : List Rule) :
    ∀ (m : List (String × Nat)), (lookupN m cat).isSome →
      lookupD (rules.foldl
          (fun m rule => bumpIfPresent m rule.category rule.weight) m) cat =
        lookupD m cat +
          ((rules.filter fun r => decide (r.category = cat)).map (·.weight)).sum := by
  induction rules with
  | nil => intro m _; simp
  | cons r t ih =>
      intro m hm
      rw [List.foldl_cons,
        ih _ (isSome_lookupN_bumpIfPresent m r.category cat r.weight hm),
        lookupD_bumpIfPresent m r.category cat r.weight hm, List.filter_cons]
      by_cases hc : r.category = cat
      · simp [hc]
        omega
      · simp [hc]

theorem getCategoryWeightsOf_eq (rules : List Rule) (cat : String)
    (h : cat ∈ MAIN_CATEGORIES) :
    lookupD (getCategoryWeightsOf rules) cat =
      ((rules.filter fun r => decide (r.category = cat)).map (·.weight)).sum := by
  have h0 : (lookupN (MAIN_CATEGORIES.map fun c => (c, 0)) cat).isSome := by
    rw [lookupN_map_self MAIN_CATEGORIES (fun _ => 0) cat h]
    rfl
  have := catWeightsFold cat rules (MAIN_CATEGORIES.map fun c => (c, 0)) h0
  rw [getCategoryWeightsOf, this, lookupD_map_self MAIN_CATEGORIES (fun _ => 0) cat h]
  simp

theorem normalizeCategory_canon (c : String) (h : c ∈ MAIN_CATEGORIES) :
    normalizeCategory c = c := by
  fin_cases h <;> decide

theorem calculateScoresOf_overall (rules : List Rule) (results : List RuleResult) :
    (calculateScoresOf rules results).overall_score =
      if 0 < (rules.map (·.weight)).sum then
        jsRound100
          ((results.map fun res =>
            if res.passed then weightOfId rules res.ruleId else 0).sum)
          ((rules.map (·.weight)).sum)
      else 0 := by
  simp [calculateScoresOf, getTotalWeightOf_eq, scoreFold_fst]

theorem calculateScoresOf_categories (rules : List Rule) (results : List RuleResult)
    (cat : String) (h : cat ∈ MAIN_CATEGORIES) :
    lookupD (calculateScoresOf rules results).categories cat =
      if 0 < ((rules.filter fun r => decide (r.category = cat)).map (·.weight)).sum
      then jsRound100 ((results.map (catContrib rules cat)).sum)
        (((rules.filter fun r => decide (r.category = cat)).map (·.weight)).sum)
      else 100 := by
  have hearned :
      lookupD ((results.foldl (scoreStep rules)
        (0, MAIN_CATEGORIES.map fun c => (c, 0))).2) cat =
        (results.map (catContrib rules cat)).sum := by
    rw [scoreFold_snd, lookupD_map_self MAIN_CATEGORIES (fun _ => 0) cat h]
    simp
  simp only [calculateScoresOf]
  rw [lookupD_map_self MAIN_CATEGORIES _ cat h,
    lookupD_map_self MAIN_CATEGORIES _ cat h,
    getCategoryWeightsOf_eq rules cat h, hearned]

/-- C1: for every list of rule outcomes, the overall score equals
round-half-up of `100 * earned_weight / total_weight`, where the earned
weight sums the catalogue weights behind the passed outcomes and the total
weight sums the weights of all catalogue rules (a failed or errored outcome
earns nothing but its rule still counts in the total); a zero total weight
gives overall score 0. -/
theorem overall_score_weighted_rounding (rules : List Rule)
    (results : List RuleResult) :
    (calculateScoresOf rules results).overall_score =
      if (rules.map (·.weight)).sum = 0 then 0
      else
        ⌊(100 * ((results.map fun res =>
            if res.passed then weightOfId rules res.ruleId else 0).sum) /
          ((rules.map (·.weight)).sum) : ℚ) + 1/2⌋₊ := by
  rw [calculateScoresOf_overall]
  by_cases ht : (rules.map (·.weight)).sum = 0
  · simp [ht]
  · have ht' : 0 < (rules.map (·.weight)).sum := Nat.pos_of_ne_zero ht
    rw [if_pos ht', if_neg ht, jsRound100_eq_floor _ _ ht']

/-- C8: for every catalogue whose rules all carry one of the four canonical
categories (as the shipped catalogue does), each category score equals
round-half-up of `100 * category_earned / category_total`, both sums ranging
over the catalogue rules of that category, and a category with zero total
weight scores 100. -/
theorem category_score_weighted_rounding (rules : List Rule)
    (hcat : ∀ r ∈ rules, r.category ∈ MAIN_CATEGORIES)
    (results : List RuleResult) (cat : String) (hc : cat ∈ MAIN_CATEGORIES) :
    lookupD (calculateScoresOf rules results).categories cat =
      if ((rules.filter fun r => decide (r.category = cat)).map (·.weight)).sum = 0
      then 100
      else
        ⌊(100 * ((results.map fun res =>
            if res.passed then
              ruleValOfId (fun r => if r.category = cat then r.weight else 0)
                rules res.ruleId
            else 0).sum) /
          (((rules.filter fun r => decide (r.category = cat)).map (·.weight)).sum) :
          ℚ) + 1/2⌋₊ := by
  have hcontrib : ∀ res : RuleResult, catContrib rules cat res =
      if res.passed then
        ruleValOfId (fun r => if r.category = cat then r.weight else 0)
          rules res.ruleId
      else 0 := by
    intro res
    unfold catContrib ruleValOfId
    rcases hf : rules.find? (fun r => decide (r.id = res.ruleId)) with _ | r
    · simp [hf]
    · have hr : r ∈ rules := List.mem_of_find?_eq_some hf
      simp [hf, normalizeCategory_canon r.category (hcat r hr)]
  rw [calculateScoresOf_categories rules results cat hc]
  have hmapeq : results.map (catContrib rules cat) =
      results.map fun res =>
        if res.passed then
          ruleValOfId (fun r => if r.category = cat then r.weight else 0)
            rules res.ruleId
        else 0 :=
    List.map_congr_left fun res _ => hcontrib res
  rw [hmapeq]
  by_cases ht : ((rules.filter fun r => decide (r.category = cat)).map (·.weight)).sum = 0
  · simp [ht]
  · have ht' : 0 < ((rules.filter fun r => decide (r.category = cat)).map (·.weight)).sum :=
      Nat.pos_of_ne_zero ht
    rw [if_pos ht', if_neg ht, jsRound100_eq_floor _ _ ht']

/-- Witness for C8 at the shipped catalogue, the empty outcome list and the
`legal` category. -/
theorem category_score_weighted_rounding_witness :
    (∀ r ∈ allRules, r.category ∈ MAIN_CATEGORIES) ∧ "legal" ∈ MAIN_CATEGORIES ∧
    lookupD (calculateScoresOf allRules []).categories "legal" =
      (if ((allRules.filter fun r => decide (r.category = "legal")).map (·.weight)).sum = 0
       then 100
       else
        ⌊(100 * ((([] : List RuleResult).map fun res =>
            if res.passed then
              ruleValOfId (fun r => if r.category = "legal" then r.weight else 0)
                allRules res.ruleId
            else 0).sum) /
          (((allRules.filter fun r => decide (r.category = "legal")).map (·.weight)).sum) :
          ℚ) + 1/2⌋₊) :=
  ⟨by decide, by decide,
    category_score_weighted_rounding allRules (by decide) [] "legal" (by decide)⟩

/-- C4: on the score range 0..100 the grade table is: 90..100 gives letter A
with label Excellent, 80..89 gives B Good, 70..79 gives C Acceptable,
60..69 gives D Needs Improvement, and 0..59 gives F Poor (the letter sits in
the `grade` field of the returned object). -/
theorem grade_thresholds (s : Nat) (h : s ≤ 100) :
    (90 ≤ s → (getScoreGrade s).grade = "A" ∧ (getScoreGrade s).label = "Excellent") ∧
    (80 ≤ s → s < 90 → (getScoreGrade s).grade = "B" ∧ (getScoreGrade s).label = "Good") ∧
    (70 ≤ s → s < 80 → (getScoreGrade s).grade = "C" ∧ (getScoreGrade s).label = "Acceptable") ∧
    (60 ≤ s → s < 70 → (getScoreGrade s).grade = "D" ∧ (getScoreGrade s).label = "Needs Improvement") ∧
    (s < 60 → (getScoreGrade s).grade = "F" ∧ (getScoreGrade s).label = "Poor") := by
  refine ⟨?_, ?_, ?_, ?_, ?_⟩
  · intro h90
    simp [getScoreGrade, h90]
  · intro h80 h90
    simp [getScoreGrade, h80, show ¬90 ≤ s by omega]
  · intro h70 h80
    simp [getScoreGrade, h70, show ¬90 ≤ s by omega, show ¬80 ≤ s by omega]
  · intro h60 h70
    simp [getScoreGrade, h60, show ¬90 ≤ s by omega, show ¬80 ≤ s by omega,
      show ¬70 ≤ s by omega]
  · intro h60
    simp [getScoreGrade, show ¬90 ≤ s by omega, show ¬80 ≤ s by omega,
      show ¬70 ≤ s by omega, show ¬60 ≤ s by omega]

/-- Witness for C4 at the boundary scores 89, 90, 59 and 60. -/
theorem grade_thresholds_witness :
    (getScoreGrade 89).grade = "B" ∧ (getScoreGrade 90).grade = "A" ∧
    (getScoreGrade 59).grade = "F" ∧ (getScoreGrade 60).grade = "D" :=
  ⟨((grade_thresholds 89 (by decide)).2.1 (by decide) (by decide)).1,
   ((grade_thresholds 90 (by decide)).1 (by decide)).1,
   ((grade_thresholds 59 (by decide)).2.2.2.2 (by decide)).1,
   ((grade_thresholds 60 (by decide)).2.2.2.1 (by decide) (by decide)).1⟩

/-- C10: `calculateScoreSummary` computes the pass rate as round-half-up of
`100 * passed / total_rules` with no guard on `total_rules`: every non-empty
outcome list yields a rate in 0..100, while the empty list divides zero by
zero and the rate is NaN (modelled as `none`). -/
theorem pass_rate_unguarded (rules : List Rule) (results : List RuleResult) :
    (results ≠ [] →
      ∃ p, (calculateScoreSummary rules results).summary.pass_rate = some p ∧
        p ≤ 100 ∧
        p = ⌊(100 * ((results.filter fun r => r.passed).length) /
              (results.length) : ℚ) + 1/2⌋₊) ∧
    (results = [] →
      (calculateScoreSummary rules results).summary.pass_rate = none) := by
  constructor
  · intro hne
    have hlen : results.length ≠ 0 := by
      simpa [List.length_eq_zero] using hne
    have hlen' : 0 < results.length := Nat.pos_of_ne_zero hlen
    refine ⟨jsRound100 (results.filter fun r => r.passed).length results.length,
      ?_, ?_, ?_⟩
    · simp [calculateScoreSummary, hlen]
    · exact jsRound100_le_100 _ _ (List.length_filter_le _ _) hlen'
    · exact jsRound100_eq_floor _ _ hlen'
  · intro he
    simp [calculateScoreSummary, he]

/-- A concrete outcome used by witnesses. -/
def demoResult : RuleResult :=
  { ruleId := "title-presence", ruleName := "Title Present",
    category := "identification", passed := true, value := none,
    message := "Title is present" }

/-- Witness for C10 at a one-outcome list and at the empty list. -/
theorem pass_rate_unguarded_witness :
    (∃ p, (calculateScoreSummary allRules [demoResult]).summary.pass_rate = some p ∧
      p ≤ 100 ∧
      p = ⌊(100 * ((([demoResult] : List RuleResult).filter fun r => r.passed).length) /
            (([demoResult] : List RuleResult).length) : ℚ) + 1/2⌋₊) ∧
    (calculateScoreSummary allRules []).summary.pass_rate = none :=
  ⟨(pass_rate_unguarded allRules [demoResult]).1 (by simp),
   (pass_rate_unguarded allRules []).2 rfl⟩

theorem evalOneRule_ruleId (rec : RecordJ) (rd : RuleDef) :
    (evalOneRule rec rd).ruleId = rd.rule.id := by
  unfold evalOneRule
  rcases rd.check rec with e | cr <;> rfl

theorem evalOneRule_passed_of_error (rec : RecordJ) (rd : RuleDef) (e : String)
    (h : rd.check rec = .error e) :
    (evalOneRule rec rd).passed = false ∧
    (evalOneRule rec rd).message = "Rule evaluation error: " ++ e := by
  unfold evalOneRule
  rw [h]
  exact ⟨rfl, rfl⟩

/-- C5: for every record and every catalogue of rules-with-checks, the
evaluator returns exactly one outcome per rule, in catalogue order, tagged
with the rule's id, name and category; a rule whose check throws gets a
failed outcome with a diagnostic message naming the error; and the outcome
at a position depends only on the rule at that position and the record, so
every other rule's outcome is identical to what it would be had the
throwing rule not thrown. -/
theorem evaluateRules_isolation (rdefs : List RuleDef) (rec : RecordJ) :
    (evaluateRules rdefs rec).length = rdefs.length ∧
    (∀ (i : Nat) (rd : RuleDef), rdefs[i]? = some rd →
      ∃ out, (evaluateRules rdefs rec)[i]? = some out ∧
        out.ruleId = rd.rule.id ∧ out.ruleName = rd.rule.name ∧
        out.category = rd.rule.category ∧
        (∀ e, rd.check rec = .error e →
          out.passed = false ∧ out.message = "Rule evaluation error: " ++ e) ∧
        (∀ (rdefs' : List RuleDef) (j : Nat), rdefs'[j]? = some rd →
          (evaluateRules rdefs' rec)[j]? = some out)) := by
  constructor
  · simp [evaluateRules]
  · intro i rd hird
    refine ⟨evalOneRule rec rd, ?_, evalOneRule_ruleId rec rd, ?_, ?_, ?_, ?_⟩
    · simp [evaluateRules, List.getElem?_map, hird]
    · unfold evalOneRule
      rcases rd.check rec with e | cr <;> rfl
    · unfold evalOneRule
      rcases rd.check rec with e | cr <;> rfl
    · exact evalOneRule_passed_of_error rec rd
    · intro rdefs' j hj
      simp [evaluateRules, List.getElem?_map, hj]

/-- A rule whose check always throws, for the C5 witness. -/
def demoRuleA : Rule :=
  { id := "demo-a", name := "Demo A", description := "First demo rule",
    category := "identification", severity := "critical", weight := 3,
    recommendation := "Fix A." }

/-- A rule whose check always passes, for the C5 witness. -/
def demoRuleB : Rule :=
  { id := "demo-b", name := "Demo B", description := "Second demo rule",
    category := "legal", severity := "warning", weight := 2,
    recommendation := "Fix B." }

/-- A two-rule catalogue whose first check throws. -/
def demoDefs : List RuleDef :=
  [{ rule := demoRuleA, check := fun _ => .error "boom" },
   { rule := demoRuleB,
     check := fun _ => .ok { passed := true, value := none, message := "ok" } }]

/-- Witness for C5: the throwing first rule of `demoDefs` yields a failed
outcome carrying the diagnostic message. -/
theorem evaluateRules_isolation_witness :
    ∃ out, (evaluateRules demoDefs [])[0]? = some out ∧
      out.ruleId = "demo-a" ∧ out.passed = false ∧
      out.message = "Rule evaluation error: boom" := by
  obtain ⟨out, hget, hid, _, _, herr, _⟩ :=
    (evaluateRules_isolation demoDefs []).2 0
      { rule := demoRuleA, check := fun _ => .error "boom" } rfl
  obtain ⟨hp, hm⟩ := herr "boom" rfl
  exact ⟨out, hget, hid, hp, hm⟩

/-- A rule with an unknown category and zero weight sharing its id with
`badRuleB`, for C3. -/
def badRuleA : Rule :=
  { id := "dup-rule", name := "Rule One", description := "Ill-formed rule",
    category := "bogus", severity := "critical", weight := 0,
    recommendation := "None." }

/-- A well-formed rule sharing its id with `badRuleA`, for C3. -/
def badRuleB : Rule :=
  { id := "dup-rule", name := "Rule Two", description := "Duplicate id rule",
    category := "legal", severity := "warning", weight := 3,
    recommendation := "None." }

/-- A catalogue with a duplicate id, an unknown category and a zero
weight. -/
def badCatalogue : List Rule := [badRuleA, badRuleB]

/-- C3 counterexample: catalogue construction does not fail fast on
integrity violations; it serves `badCatalogue` unchanged, duplicate id,
unknown category and zero weight included. -/
theorem catalogue_construction_no_failfast :
    deduplicateRules badCatalogue = badCatalogue ∧
    ¬ ((deduplicateRules badCatalogue).map (·.id)).Nodup ∧
    (∃ r ∈ deduplicateRules badCatalogue, r.category ∉ MAIN_CATEGORIES) ∧
    (∃ r ∈ deduplicateRules badCatalogue, r.weight = 0) := by
  decide

theorem mem_dedupFold (l : List Rule) :
    ∀ (st : List (String × Rule) × List Rule) (r : Rule),
      r ∈ (l.foldl dedupStep st).2 → r ∈ st.2 ∨ r ∈ l := by
  induction l with
  | nil => intro st r h; exact Or.inl h
  | cons a t ih =>
      intro st r h
      rw [List.foldl_cons] at h
      rcases ih (dedupStep st a) r h with h1 | h1
      · have h2 : r ∈ st.2 ∨ r = a := by
          unfold dedupStep at h1
          rcases hl : st.1.lookup (ruleSignature a) with _ | ex
          · rw [hl] at h1
            simp at h1
            rcases h1 with h1 | h1
            · exact Or.inl h1
            · exact Or.inr h1
          · rw [hl] at h1
            by_cases hw : ex.weight < a.weight
            · simp [hw] at h1
              exact List.mem_or_eq_of_mem_set h1
            · simp [hw] at h1
              exact Or.inl h1
        rcases h2 with h2 | h2
        · exact Or.inl h2
        · exact Or.inr (by rw [h2]; exact List.mem_cons_self a t)
      · exact Or.inr (List.mem_cons_of_mem a h1)

/-- A low-weight rule colliding on its signature with `collideRuleHigh`
(double space collapsing to the same normalized name). -/
def collideRuleLow : Rule :=
  { id := "col-low", name := "Same  Name", description := "Collision, low",
    category := "legal", severity := "warning", weight := 2,
    recommendation := "Low." }

/-- A higher-weight rule with the same signature as `collideRuleLow`. -/
def collideRuleHigh : Rule :=
  { id := "col-high", name := "Same Name", description := "Collision, high",
    category := "legal", severity := "warning", weight := 5,
    recommendation := "High." }

/-- C3 amended: catalogue construction never fails and performs no
integrity validation. It only deduplicates: every served rule is one of the
authored rules, a signature collision on (category, lowercased
whitespace-collapsed name) keeps the strictly heavier rule in place, and
rules with duplicate ids, unknown categories or non-positive weights are
served unchanged. -/
theorem deduplicateRules_total_dedup :
    (∀ (rules : List Rule) (r : Rule), r ∈ deduplicateRules rules → r ∈ rules) ∧
    deduplicateRules [collideRuleLow, collideRuleHigh] = [collideRuleHigh] ∧
    deduplicateRules [collideRuleHigh, collideRuleLow] = [collideRuleHigh] ∧
    deduplicateRules badCatalogue = badCatalogue := by
  refine ⟨?_, by decide, by decide, by decide⟩
  intro rules r h
  rcases mem_dedupFold rules ([], []) r h with h1 | h1
  · simp at h1
  · exact h1

/-- Witness for C3 amended: membership of the served rules in the authored
list, at `badCatalogue`. -/
theorem deduplicateRules_total_dedup_witness :
    badRuleA ∈ deduplicateRules badCatalogue ∧ badRuleA ∈ badCatalogue :=
  ⟨by decide, deduplicateRules_total_dedup.1 badCatalogue badRuleA (by decide)⟩

theorem sum_ruleValOfId_nodup (rules : List Rule)
    (h : (rules.map (·.id)).Nodup) (f : Rule → Nat) :
    (rules.map fun r => ruleValOfId f rules r.id).sum = (rules.map f).sum := by
  induction rules with
  | nil => simp
  | cons r rs ih =>
      rw [List.map_cons] at h
      rcases List.nodup_cons.mp h with ⟨hnot, hnd⟩
      have hhead : ruleValOfId f (r :: rs) r.id = f r := by
        unfold ruleValOfId
        rw [List.find?_cons_of_pos _ (by simp)]
      have htail : rs.map (fun r' => ruleValOfId f (r :: rs) r'.id) =
          rs.map fun r' => ruleValOfId f rs r'.id := by
        apply List.map_congr_left
        intro r' hr'
        have hne : ¬r.id = r'.id := by
          intro he
          exact hnot (he ▸ List.mem_map_of_mem (·.id) hr')
        unfold ruleValOfId
        rw [List.find?_cons_of_neg _ (by simp [hne])]
      rw [List.map_cons, List.sum_cons, hhead, htail, ih hnd, List.map_cons,
        List.sum_cons]

theorem sum_map_ite_filter (f : Rule → Nat) (p : Rule → Prop) [DecidablePred p]
    (l : List Rule) :
    (l.map fun r => if p r then f r else 0).sum =
      ((l.filter fun r => decide (p r)).map f).sum := by
  induction l with
  | nil => simp
  | cons a t ih => by_cases h : p a <;> simp [List.filter_cons, h, ih]

theorem evaluateRules_map_sum (rdefs : List RuleDef) (rec : RecordJ)
    (g : String → Nat) :
    ((evaluateRules rdefs rec).map fun res => g res.ruleId).sum =
      (rdefs.map fun rd => g rd.rule.id).sum := by
  rw [evaluateRules, List.map_map]
  congr 1
  apply List.map_congr_left
  intro rd _
  simp [Function.comp, evalOneRule_ruleId]

theorem sum_if_passed_le (results : List RuleResult) (g : String → Nat) :
    (results.map fun res => if res.passed then g res.ruleId else 0).sum ≤
      (results.map fun res => g res.ruleId).sum := by
  induction results with
  | nil => simp
  | cons res t ih =>
      simp only [List.map_cons, List.sum_cons]
      by_cases h : res.passed = true
      · simp [h]
        omega
      · simp [h]
        omega

/-- C7: for every check implementation of the shipped catalogue (hence every
record and every evaluation clock), the pipeline's overall score and each of
the four category scores lie in 0..100. -/
theorem pipeline_score_bounds (rdefs : List RuleDef)
    (nd : String → Option String) (raw : JVal)
    (h : rdefs.map (·.rule) = allRules) :
    (evaluateMetadataScores rdefs nd raw).scores.overall_score ≤ 100 ∧
    ∀ cat ∈ MAIN_CATEGORIES,
      lookupD (evaluateMetadataScores rdefs nd raw).scores.categories cat ≤ 100 := by
  have hnodup : (allRules.map (·.id)).Nodup := by decide
  have hcatAll : ∀ r ∈ allRules, r.category ∈ MAIN_CATEGORIES := by decide
  have hscores : (evaluateMetadataScores rdefs nd raw).scores =
      calculateScoresOf allRules
        (evaluateRules rdefs (normalizeMetadata nd raw)) := by
    rw [evaluateMetadataScores, calculateScoreSummary, h]
  set results := evaluateRules rdefs (normalizeMetadata nd raw) with hres
  have htransport : ∀ g : String → Nat,
      (results.map fun res => g res.ruleId).sum =
        (allRules.map fun r => g r.id).sum := by
    intro g
    rw [hres, evaluateRules_map_sum]
    have : rdefs.map (fun rd => g rd.rule.id) =
        (rdefs.map (·.rule)).map fun r => g r.id := by
      rw [List.map_map]
      rfl
    rw [this, h]
  constructor
  · rw [hscores, calculateScoresOf_overall]
    by_cases ht : 0 < (allRules.map (·.weight)).sum
    · rw [if_pos ht]
      apply jsRound100_le_100 _ _ _ ht
      calc (results.map fun res =>
              if res.passed then weightOfId allRules res.ruleId else 0).sum
          ≤ (results.map fun res => weightOfId allRules res.ruleId).sum :=
            sum_if_passed_le results _
        _ = (allRules.map fun r => weightOfId allRules r.id).sum :=
            htransport _
        _ = (allRules.map (·.weight)).sum :=
            sum_ruleValOfId_nodup allRules hnodup _
    · rw [if_neg ht]
      omega
  · intro cat hc
    rw [hscores, calculateScoresOf_categories allRules results cat hc]
    by_cases ht : 0 <
        ((allRules.filter fun r => decide (r.category = cat)).map (·.weight)).sum
    · rw [if_pos ht]
      apply jsRound100_le_100 _ _ _ ht
      have hcontrib_le : ∀ res ∈ results, catContrib allRules cat res ≤
          ruleValOfId
            (fun r => if normalizeCategory r.category = cat then r.weight else 0)
            allRules res.ruleId := by
        intro res _
        unfold catContrib
        by_cases hp : res.passed = true <;> simp [hp]
      calc (results.map (catContrib allRules cat)).sum
          ≤ (results.map fun res =>
              ruleValOfId
                (fun r => if normalizeCategory r.category = cat then r.weight else 0)
                allRules res.ruleId).sum := by
            apply List.sum_le_sum
            intro res hres'
            exact hcontrib_le res hres'
        _ = (allRules.map fun r =>
              ruleValOfId
                (fun r => if normalizeCategory r.category = cat then r.weight else 0)
                allRules r.id).sum := htransport _
        _ = (allRules.map fun r =>
              if normalizeCategory r.category = cat then r.weight else 0).sum :=
            sum_ruleValOfId_nodup allRules hnodup _
        _ = (allRules.map fun r => if r.category = cat then r.weight else 0).sum := by
            apply congrArg List.sum
            apply List.map_congr_left
            intro r hr
            rw [normalizeCategory_canon r.category (hcatAll r hr)]
        _ = ((allRules.filter fun r => decide (r.category = cat)).map (·.weight)).sum :=
            sum_map_ite_filter (·.weight) (fun r => r.category = cat) allRules
    · rw [if_neg ht]

/-- The shipped catalogue with trivially passing checks, for the C7
witness. -/
def allRuleDefs : List RuleDef :=
  allRules.map fun r =>
    { rule := r, check := fun _ => .ok { passed := true, value := none, message := "ok" } }

/-- Witness for C7 at the trivially-checked shipped catalogue, the
never-parsing date canonicalizer and the empty raw record. -/
theorem pipeline_score_bounds_witness :
    (evaluateMetadataScores allRuleDefs (fun _ => none) (.obj [])).scores.overall_score ≤ 100 ∧
    lookupD (evaluateMetadataScores allRuleDefs (fun _ => none) (.obj [])).scores.categories
      "legal" ≤ 100 := by
  have h : allRuleDefs.map (·.rule) = allRules := by
    rw [allRuleDefs, List.map_map]
    exact List.map_id allRules
  exact ⟨(pipeline_score_bounds allRuleDefs (fun _ => none) (.obj []) h).1,
    (pipeline_score_bounds allRuleDefs (fun _ => none) (.obj []) h).2 "legal" (by decide)⟩

/-! ### Ranking keys of the recommendation outputs -/

/-- The flat recommendation list of a `Recs` value. -/
def flatRecsOf : Recs → List FlatRec
  | .flat recs _ _ => recs
  | .grouped _ _ _ => []

/-- The category buckets of a `Recs` value. -/
def groupsOf : Recs → List CatGroup
  | .grouped gs _ _ => gs
  | .flat _ _ _ => []

/-- The priority key `weight * severity multiplier` read back off a flat
entry. -/
def flatPrio (x : FlatRec) : Nat :=
  x.potentialGain * jsNumOr (SEVERITY_WEIGHTS x.severity) 1

/-- The severity key of the in-bucket item comparator. -/
def itemSevK (x : CatItem) : Nat := jsNumOr (SEVERITY_WEIGHTS x.severity) 0

/-- The effective severity rank of the top-improvements comparator
(`severityOrder[s] || 3`, so critical ranks 3, like suggestion). -/
def impSevK (x : Improvement) : Nat := jsNumOr (severityOrder x.severity) 3

theorem impLe_iff (a b : Improvement) :
    impLe a b = true ↔
      (impSevK a < impSevK b ∨ (impSevK a = impSevK b ∧ b.weight ≤ a.weight)) := by
  simp [impLe, impSevK, Bool.or_eq_true, Bool.and_eq_true, decide_eq_true_eq]

theorem itemLe_iff (a b : CatItem) :
    itemLe a b = true ↔
      (itemSevK b < itemSevK a ∨ (itemSevK b = itemSevK a ∧ b.weight ≤ a.weight)) := by
  simp [itemLe, itemSevK, Bool.or_eq_true, Bool.and_eq_true, decide_eq_true_eq]

theorem enrichedLe_iff (a b : Enriched) :
    enrichedLe a b = true ↔ b.priorityScore ≤ a.priorityScore := by
  simp [enrichedLe]

theorem impLe_trans (a b c : Improvement)
    (hab : impLe a b = true) (hbc : impLe b c = true) : impLe a c = true := by
  rw [impLe_iff] at hab hbc ⊢
  omega

theorem impLe_total (a b : Improvement) : impLe a b = true ∨ impLe b a = true := by
  rw [impLe_iff, impLe_iff]
  omega

theorem itemLe_trans (a b c : CatItem)
    (hab : itemLe a b = true) (hbc : itemLe b c = true) : itemLe a c = true := by
  rw [itemLe_iff] at hab hbc ⊢
  omega

theorem itemLe_total (a b : CatItem) : itemLe a b = true ∨ itemLe b a = true := by
  rw [itemLe_iff, itemLe_iff]
  omega

/-- The severity key of the simple-recommendation comparator. -/
def simpSevK (x : SimpleRec) : Nat := jsNumOr (SEVERITY_WEIGHTS x.severity) 0

theorem simpleLe_iff (a b : SimpleRec) :
    simpleLe a b = true ↔
      (simpSevK b < simpSevK a ∨ (simpSevK b = simpSevK a ∧ b.weight ≤ a.weight)) := by
  simp [simpleLe, simpSevK, Bool.or_eq_true, Bool.and_eq_true, decide_eq_true_eq]

theorem simpleLe_trans (a b c : SimpleRec)
    (hab : simpleLe a b = true) (hbc : simpleLe b c = true) : simpleLe a c = true := by
  rw [simpleLe_iff] at hab hbc ⊢
  omega

theorem simpleLe_total (a b : SimpleRec) :
    simpleLe a b = true ∨ simpleLe b a = true := by
  rw [simpleLe_iff, simpleLe_iff]
  omega

theorem enrichedLe_trans (a b c : Enriched)
    (hab : enrichedLe a b = true) (hbc : enrichedLe b c = true) :
    enrichedLe a c = true := by
  rw [enrichedLe_iff] at hab hbc ⊢
  omega

theorem enrichedLe_total (a b : Enriched) :
    enrichedLe a b = true ∨ enrichedLe b a = true := by
  rw [enrichedLe_iff, enrichedLe_iff]
  omega

theorem enrichOne_priorityScore (rules : List Rule) (res : RuleResult) :
    (enrichOne rules res).priorityScore =
      (enrichOne rules res).weight *
        jsNumOr (SEVERITY_WEIGHTS (enrichOne rules res).severity) 1 := by
  unfold enrichOne calculatePriorityScore
  rcases hf : rules.find? (fun r => decide (r.id = res.ruleId)) with _ | r
  · simp [hf, jsNumOr]
  · by_cases hs : r.severity = ""
    · simp [hf, jsStrOr, jsNumOr, hs, SEVERITY_WEIGHTS]
    · simp [hf, jsStrOr, jsNumOr, hs]

theorem pairwise_enum_map {α β : Type} (l : List α) (f : Nat × α → β)
    (R : α → α → Prop) (S : β → β → Prop)
    (himp : ∀ p q : Nat × α, R p.2 q.2 → S (f p) (f q))
    (hl : l.Pairwise R) : (l.enum.map f).Pairwise S := by
  rw [List.pairwise_map]
  have h1 : l.enum.Pairwise fun p q : Nat × α => R p.2 q.2 := by
    have h2 : (l.enum.map Prod.snd).Pairwise R := by
      rw [List.enum_map_snd]
      exact hl
    exact List.pairwise_map.mp h2
  exact h1.imp fun {p q} h => himp p q h

/-- C2 amended: the flat recommendation list is ranked solely by
`priority = weight * severity multiplier` descending — equal priorities keep
their input order and there is no raw-weight tie-break (the flat entries are
the rank-indexed projections of a stably priority-ranked permutation of the
enriched failed outcomes); the simple recommendation strings are the
recommendations of the failed outcomes ranked by severity multiplier
descending then raw weight descending; items inside each category bucket
are ranked by severity multiplier descending then raw weight descending;
and the top-improvements list is ranked by the implemented effective
severity rank ascending — where `severityOrder[s] || 3` sends critical to
3, like suggestion — then raw weight descending. -/
theorem recommendations_ranking (rules : List Rule) (results : List RuleResult)
    (maxRec limit : Nat) :
    (flatRecsOf (generateRecommendations rules results maxRec false)).Pairwise
      (fun x y => flatPrio y ≤ flatPrio x) ∧
    (∃ ranked : List Enriched,
      ranked.Perm ((results.filter fun r => !r.passed).map (enrichOne rules)) ∧
      ranked.Pairwise (fun a b => b.priorityScore ≤ a.priorityScore) ∧
      (∀ t : List Enriched,
        t.Sublist ((results.filter fun r => !r.passed).map (enrichOne rules)) →
        (∀ a ∈ t, ∀ b ∈ t, a.priorityScore = b.priorityScore) →
        t.Sublist ranked) ∧
      flatRecsOf (generateRecommendations rules results maxRec false) =
        (ranked.take maxRec).enum.map projFlat) ∧
    (∃ rankedS : List SimpleRec,
      rankedS.Perm ((results.filter fun r => !r.passed).map (simpleEnrichOne rules)) ∧
      rankedS.Pairwise (fun x y =>
        simpSevK y < simpSevK x ∨ (simpSevK y = simpSevK x ∧ y.weight ≤ x.weight)) ∧
      generateSimpleRecommendations rules results limit =
        (rankedS.take limit).map (·.recommendation)) ∧
    (∀ g ∈ groupsOf (generateRecommendations rules results maxRec true),
      g.items.Pairwise fun x y =>
        itemSevK y < itemSevK x ∨ (itemSevK y = itemSevK x ∧ y.weight ≤ x.weight)) ∧
    (getImprovementPotential rules results).Pairwise
      (fun x y => impSevK x < impSevK y ∨ (impSevK x = impSevK y ∧ y.weight ≤ x.weight)) := by
  refine ⟨?_, ?_, ?_, ?_, ?_⟩
  · -- flat: descending priority score, pushed through the projection
    have hflat : flatRecsOf (generateRecommendations rules results maxRec false) =
        (((jsSort enrichedLe
            ((results.filter fun r => !r.passed).map (enrichOne rules))).take
          maxRec).enum.map projFlat) := rfl
    rw [hflat]
    set sorted := jsSort enrichedLe
      ((results.filter fun r => !r.passed).map (enrichOne rules)) with hsorted
    have hps : ∀ e ∈ sorted, e.priorityScore =
        e.weight * jsNumOr (SEVERITY_WEIGHTS e.severity) 1 := by
      intro e he
      rw [hsorted, mem_jsSort] at he
      rcases List.mem_map.mp he with ⟨res, _, hres⟩
      rw [← hres]
      exact enrichOne_priorityScore rules res
    have hsortedPw : sorted.Pairwise fun a b => enrichedLe a b = true :=
      pairwise_jsSort enrichedLe enrichedLe_trans enrichedLe_total _
    have htakePw : (sorted.take maxRec).Pairwise
        (fun a b : Enriched =>
          b.weight * jsNumOr (SEVERITY_WEIGHTS b.severity) 1 ≤
          a.weight * jsNumOr (SEVERITY_WEIGHTS a.severity) 1) := by
      have h1 : (sorted.take maxRec).Pairwise fun a b => enrichedLe a b = true :=
        List.Pairwise.sublist (List.take_sublist maxRec sorted) hsortedPw
      refine h1.imp_of_mem ?_
      intro a b ha hb hab
      have ha' := hps a (List.take_subset maxRec sorted ha)
      have hb' := hps b (List.take_subset maxRec sorted hb)
      rw [enrichedLe_iff] at hab
      rw [← ha', ← hb']
      exact hab
    exact pairwise_enum_map _ _ _ _ (fun p q h => h) htakePw
  · -- flat: the ranking is a stable, priority-sorted permutation
    refine ⟨jsSort enrichedLe
      ((results.filter fun r : RuleResult => !r.passed).map (enrichOne rules)),
      perm_jsSort _ _, ?_, ?_, rfl⟩
    · have h1 := pairwise_jsSort enrichedLe enrichedLe_trans enrichedLe_total
        ((results.filter fun r => !r.passed).map (enrichOne rules))
      exact h1.imp fun {a b} h => (enrichedLe_iff a b).mp h
    · intro t hsub hties
      apply jsSort_stable enrichedLe _ t hsub
      intro a ha b hb
      rw [enrichedLe_iff, hties a ha b hb]
  · -- simple: severity-then-weight ranked permutation behind the strings
    refine ⟨jsSort simpleLe
      ((results.filter fun r : RuleResult => !r.passed).map (simpleEnrichOne rules)),
      perm_jsSort _ _, ?_, rfl⟩
    have h1 := pairwise_jsSort simpleLe simpleLe_trans simpleLe_total
      ((results.filter fun r => !r.passed).map (simpleEnrichOne rules))
    exact h1.imp fun {a b} h => (simpleLe_iff a b).mp h
  · -- grouped: in-bucket items come from a sort by the item comparator
    intro g hg
    have hG : groupsOf (generateRecommendations rules results maxRec true) =
        (jsSort groupLe
          ((jsSort enrichedLe
            ((results.filter fun r => !r.passed).map (enrichOne rules))).foldl
            (groupedStep
              ((jsSort enrichedLe
                ((results.filter fun r => !r.passed).map (enrichOne rules))).take
                maxRec)) [])).map
          (fun g => { g with items := jsSort itemLe g.items }) := rfl
    rw [hG] at hg
    rcases List.mem_map.mp hg with ⟨g0, _, hg0⟩
    have hitems : g.items = jsSort itemLe g0.items := by rw [← hg0]
    rw [hitems]
    have h1 : (jsSort itemLe g0.items).Pairwise fun a b => itemLe a b = true :=
      pairwise_jsSort itemLe itemLe_trans itemLe_total _
    exact h1.imp fun {a b} h => (itemLe_iff a b).mp h
  · have h1 : (getImprovementPotential rules results).Pairwise
        fun a b => impLe a b = true := by
      unfold getImprovementPotential
      exact pairwise_jsSort impLe impLe_trans impLe_total _
    exact h1.imp fun {a b} h => (impLe_iff a b).mp h

/-- A failed outcome of the warning-severity, weight-8 rule `title-length`
(priority 16). -/
def cexTitleLength : RuleResult :=
  { ruleId := "title-length", ruleName := "Title Length",
    category := "identification", passed := false, value := none,
    message := "Title is too short" }

/-- A failed outcome of the important-severity, weight-5 rule
`reu-variables` (priority 15). -/
def cexReuVariables : RuleResult :=
  { ruleId := "reu-variables", ruleName := "Variable Definitions",
    category := "description", passed := false, value := none,
    message := "No variable definitions" }

/-- Two failed outcomes whose claimed priority order and implemented order
disagree. -/
def cexResults : List RuleResult := [cexTitleLength, cexReuVariables]

/-- C2 counterexample: `priority = weight * severity multiplier` is not the
ranking key of the top-improvements list: with the two failed outcomes of
`cexResults`, the list puts `reu-variables` (priority 15) ahead of
`title-length` (priority 16), so its priorities are not descending. -/
theorem improvements_not_priority_ranked :
    ((getImprovementPotential allRules cexResults).map fun i =>
      (i.ruleId, i.weight * jsNumOr (SEVERITY_WEIGHTS i.severity) 1)) =
      [("reu-variables", 15), ("title-length", 16)] ∧
    ¬ ((getImprovementPotential allRules cexResults).map fun i =>
        i.weight * jsNumOr (SEVERITY_WEIGHTS i.severity) 1).Pairwise (· ≥ ·) := by
  decide

/-- Witness for C2 amended at the shipped catalogue and `cexResults`,
discharging the stability hypotheses at a concrete one-element tied
sublist. -/
theorem recommendations_ranking_witness :
    (flatRecsOf (generateRecommendations allRules cexResults 10 false)).Pairwise
      (fun x y => flatPrio y ≤ flatPrio x) ∧
    (∃ ranked : List Enriched,
      ranked.Pairwise (fun a b => b.priorityScore ≤ a.priorityScore) ∧
      flatRecsOf (generateRecommendations allRules cexResults 10 false) =
        (ranked.take 10).enum.map projFlat ∧
      [enrichOne allRules cexTitleLength].Sublist ranked) ∧
    (∃ rankedS : List SimpleRec,
      rankedS.Pairwise (fun x y =>
        simpSevK y < simpSevK x ∨ (simpSevK y = simpSevK x ∧ y.weight ≤ x.weight)) ∧
      generateSimpleRecommendations allRules cexResults 5 =
        (rankedS.take 5).map (·.recommendation)) ∧
    (0 < (groupsOf (generateRecommendations allRules cexResults 10 true)).length ∧
      ((groupsOf (generateRecommendations allRules cexResults 10 true)).get
        ⟨0, by decide⟩).items.Pairwise fun x y =>
          itemSevK y < itemSevK x ∨ (itemSevK y = itemSevK x ∧ y.weight ≤ x.weight)) ∧
    (getImprovementPotential allRules cexResults).Pairwise
      (fun x y => impSevK x < impSevK y ∨ (impSevK x = impSevK y ∧ y.weight ≤ x.weight)) := by
  obtain ⟨h1, ⟨ranked, _, hpw, hstable, heq⟩, ⟨rankedS, _, hpwS, heqS⟩, hgr, himp⟩ :=
    recommendations_ranking allRules cexResults 10 5
  refine ⟨h1, ⟨ranked, hpw, heq, ?_⟩, ⟨rankedS, hpwS, heqS⟩,
    ⟨by decide, hgr _ (List.get_mem _ _ _)⟩, himp⟩
  apply hstable
  · have hfil : cexResults.filter (fun r => !r.passed) =
        [cexTitleLength, cexReuVariables] := rfl
    rw [List.singleton_sublist, hfil]
    exact List.mem_map_of_mem _ (List.mem_cons_self _ _)
  · intro a ha b hb
    rw [List.mem_singleton] at ha hb
    rw [ha, hb]

/-! ### The normalizer, field by field -/

/-- What the string-field pass leaves behind a string field. -/
def strNormVal : Option JVal → Option JVal
  | some (.str s) => if jsTrim s = "" then none else some (.str (jsTrim s))
  | o => o

/-- What the array-field pass leaves behind an array field. -/
def arrNormVal : Option JVal → Option JVal
  | some (.arr xs) =>
      if ((xs.map trimIfStr).filter keepElem).length = 0 then none
      else some (.arr ((xs.map trimIfStr).filter keepElem))
  | o => o

theorem getJ_normStrField_same (rec : RecordJ) (f : String) :
    getJ (normStrField rec f) f = strNormVal (getJ rec f) := by
  rcases hg : getJ rec f with _ | v
  · simp [normStrField, hg, strNormVal]
  · rcases v with s | n | b | _ | xs | flds
    · by_cases ht : jsTrim s = ""
      · simp [normStrField, hg, strNormVal, ht, getJ_delJ_same]
      · simp [normStrField, hg, strNormVal, ht, getJ_setJ_same]
    · simp [normStrField, hg, strNormVal]
    · simp [normStrField, hg, strNormVal]
    · simp [normStrField, hg, strNormVal]
    · simp [normStrField, hg, strNormVal]
    · simp [normStrField, hg, strNormVal]

theorem getJ_normStrField_ne (rec : RecordJ) (f g : String) (h : g ≠ f) :
    getJ (normStrField rec g) f = getJ rec f := by
  rcases hg : getJ rec g with _ | v
  · simp [normStrField, hg]
  · rcases v with s | n | b | _ | xs | flds
    · by_cases ht : jsTrim s = ""
      · simp [normStrField, hg, ht, getJ_delJ_ne rec g f h]
      · simp [normStrField, hg, ht, getJ_setJ_ne rec g f _ h]
    · simp [normStrField, hg]
    · simp [normStrField, hg]
    · simp [normStrField, hg]
    · simp [normStrField, hg]
    · simp [normStrField, hg]

theorem getJ_normArrField_same (rec : RecordJ) (f : String) :
    getJ (normArrField rec f) f = arrNormVal (getJ rec f) := by
  rcases hg : getJ rec f with _ | v
  · simp [normArrField, hg, arrNormVal]
  · rcases v with s | n | b | _ | xs | flds
    · simp [normArrField, hg, arrNormVal]
    · simp [normArrField, hg, arrNormVal]
    · simp [normArrField, hg, arrNormVal]
    · simp [normArrField, hg, arrNormVal]
    · by_cases ht : ((xs.map trimIfStr).filter keepElem).length = 0
      · simp [normArrField, hg, arrNormVal, ht, getJ_delJ_same]
      · simp [normArrField, hg, arrNormVal, ht, getJ_setJ_same]
    · simp [normArrField, hg, arrNormVal]

theorem getJ_normArrField_ne (rec : RecordJ) (f g : String) (h : g ≠ f) :
    getJ (normArrField rec g) f = getJ rec f := by
  rcases hg : getJ rec g with _ | v
  · simp [normArrField, hg]
  · rcases v with s | n | b | _ | xs | flds
    · simp [normArrField, hg]
    · simp [normArrField, hg]
    · simp [normArrField, hg]
    · simp [normArrField, hg]
    · by_cases ht : ((xs.map trimIfStr).filter keepElem).length = 0
      · simp [normArrField, hg, ht, getJ_delJ_ne rec g f h]
      · simp [normArrField, hg, ht, getJ_setJ_ne rec g f _ h]
    · simp [normArrField, hg]

theorem getJ_normDateField_ne (nd : String → Option String) (rec : RecordJ)
    (f : String) (h : f ≠ "publication_date") :
    getJ (normDateField nd rec) f = getJ rec f := by
  rcases hg : getJ rec "publication_date" with _ | v
  · simp [normDateField, hg]
  · by_cases htr : truthy v = true
    · rcases hc : nd (jsTrim (jstr v)) with _ | canon
      · simp [normDateField, hg, htr, hc]
      · simp [normDateField, hg, htr, hc,
          getJ_setJ_ne rec "publication_date" f _ (Ne.symm h)]
    · simp [normDateField, hg, htr]

theorem foldl_getJ_preserve (f : String) (step : RecordJ → String → RecordJ)
    (hstep : ∀ rec g, g ≠ f → getJ (step rec g) f = getJ rec f) :
    ∀ (L : List String), f ∉ L → ∀ rec, getJ (L.foldl step rec) f = getJ rec f := by
  intro L
  induction L with
  | nil => intro _ rec; rfl
  | cons g T ih =>
      intro hfL rec
      have hgf : g ≠ f := by
        intro he
        exact hfL (by rw [he]; exact List.mem_cons_self f T)
      have hfT : f ∉ T := fun hx => hfL (List.mem_cons_of_mem g hx)
      rw [List.foldl_cons, ih hfT, hstep rec g hgf]

theorem foldl_getJ_hit (f : String) (step : RecordJ → String → RecordJ)
    (val : Option JVal → Option JVal)
    (hne : ∀ rec g, g ≠ f → getJ (step rec g) f = getJ rec f)
    (hsame : ∀ rec, getJ (step rec f) f = val (getJ rec f)) :
    ∀ (L : List String), L.Nodup → f ∈ L → ∀ rec,
      getJ (L.foldl step rec) f = val (getJ rec f) := by
  intro L
  induction L with
  | nil => intro _ h; simp at h
  | cons g T ih =>
      intro hnd hfL rec
      rcases List.nodup_cons.mp hnd with ⟨hgT, hndT⟩
      by_cases hfg : f = g
      · subst hfg
        rw [List.foldl_cons, foldl_getJ_preserve f step hne T hgT, hsame]
      · have hfT : f ∈ T := by
          rcases List.mem_cons.mp hfL with h1 | h1
          · exact absurd h1 hfg
          · exact h1
        rw [List.foldl_cons, ih hndT hfT, hne rec g (fun he => hfg he.symm)]

theorem getJ_normalizeFields_strField (nd : String → Option String)
    (fields : RecordJ) (f : String) (hf : f ∈ stringFields) :
    getJ (normalizeFields nd fields) f = strNormVal (getJ fields f) := by
  have hnotarr : f ∉ arrayFields := by fin_cases hf <;> decide
  have hnotpd : f ≠ "publication_date" := by fin_cases hf <;> decide
  have hnd : stringFields.Nodup := by decide
  rw [normalizeFields, getJ_normDateField_ne nd _ f hnotpd,
    foldl_getJ_preserve f normArrField
      (fun rec g hg => getJ_normArrField_ne rec f g hg) arrayFields hnotarr,
    foldl_getJ_hit f normStrField strNormVal
      (fun rec g hg => getJ_normStrField_ne rec f g hg)
      (fun rec => getJ_normStrField_same rec f) stringFields hnd hf]

theorem getJ_normalizeFields_arrField (nd : String → Option String)
    (fields : RecordJ) (f : String) (hf : f ∈ arrayFields) :
    getJ (normalizeFields nd fields) f = arrNormVal (getJ fields f) := by
  have hnotstr : f ∉ stringFields := by fin_cases hf <;> decide
  have hnotpd : f ≠ "publication_date" := by fin_cases hf <;> decide
  have hnd : arrayFields.Nodup := by decide
  rw [normalizeFields, getJ_normDateField_ne nd _ f hnotpd,
    foldl_getJ_hit f normArrField arrNormVal
      (fun rec g hg => getJ_normArrField_ne rec f g hg)
      (fun rec => getJ_normArrField_same rec f) arrayFields hnd hf,
    foldl_getJ_preserve f normStrField
      (fun rec g hg => getJ_normStrField_ne rec f g hg) stringFields hnotstr]

/-- C6 amended: the normalizer is a total function (it never throws); null
and every non-object input (strings, numbers, booleans) give the empty
record; every string field is trimmed, and a field that trims to the empty
string becomes absent; every array field keeps its elements with strings
trimmed, drops exactly the elements that are the empty string (after
trimming) or null — other falsy elements such as the number 0 or false are
kept — and becomes absent when the cleaned array is empty. The input is
never mutated: the embedding is a pure function of its argument. -/
theorem normalizeMetadata_spec (nd : String → Option String) :
    (∀ s : String, normalizeMetadata nd (.str s) = []) ∧
    (∀ n : Int, normalizeMetadata nd (.num n) = []) ∧
    (∀ b : Bool, normalizeMetadata nd (.bool b) = []) ∧
    normalizeMetadata nd .nullv = [] ∧
    (∀ (fields : RecordJ) (f : String), f ∈ stringFields →
      getJ (normalizeMetadata nd (.obj fields)) f = strNormVal (getJ fields f)) ∧
    (∀ (fields : RecordJ) (f : String), f ∈ arrayFields →
      getJ (normalizeMetadata nd (.obj fields)) f = arrNormVal (getJ fields f)) := by
  refine ⟨fun _ => rfl, fun _ => rfl, fun _ => rfl, rfl, ?_, ?_⟩
  · intro fields f hf
    exact getJ_normalizeFields_strField nd fields f hf
  · intro fields f hf
    exact getJ_normalizeFields_arrField nd fields f hf

/-- C6 counterexample: the array filter keeps falsy elements that are not
the empty string or null: normalizing `(authors := [0])` leaves the field
present as `[0]` instead of dropping the falsy element and the field. -/
theorem normalizeMetadata_keeps_falsy_zero :
    getJ (normalizeMetadata (fun _ => none) (.obj [("authors", .arr [.num 0])]))
      "authors" = some (.arr [.num 0]) ∧
    getJ (normalizeMetadata (fun _ => none) (.obj [("authors", .arr [.num 0])]))
      "authors" ≠ none := by
  have h1 : getJ (normalizeMetadata (fun _ => none)
      (.obj [("authors", .arr [.num 0])])) "authors" = some (.arr [.num 0]) := rfl
  refine ⟨h1, ?_⟩
  rw [h1]
  simp

/-- Witness for C6 amended: the `title` string field of a concrete record is
trimmed in place. -/
theorem normalizeMetadata_spec_witness :
    ("title" ∈ stringFields) ∧
    getJ (normalizeMetadata (fun _ => none) (.obj [("title", .str "  x ")]))
      "title" = strNormVal (getJ [("title", .str "  x ")] "title") ∧
    strNormVal (getJ [("title", .str "  x ")] "title") = some (.str "x") :=
  ⟨by decide,
   (normalizeMetadata_spec (fun _ => none)).2.2.2.2.1 [("title", .str "  x ")]
     "title" (by decide),
   rfl⟩

theorem foldl_id_of_fixed {α : Type} (step : RecordJ → α → RecordJ)
    (L : List α) (rec : RecordJ) (h : ∀ x ∈ L, step rec x = rec) :
    L.foldl step rec = rec := by
  induction L with
  | nil => rfl
  | cons a T ih =>
      rw [List.foldl_cons, h a (List.mem_cons_self a T)]
      exact ih fun x hx => h x (List.mem_cons_of_mem a hx)

theorem normStrField_normalized (nd : String → Option String) (fields : RecordJ)
    (f : String) (hf : f ∈ stringFields) :
    normStrField (normalizeFields nd fields) f = normalizeFields nd fields := by
  have hchar := getJ_normalizeFields_strField nd fields f hf
  rcases hg : getJ fields f with _ | v
  · rw [hg] at hchar
    simp only [strNormVal] at hchar
    simp [normStrField, hchar]
  · rcases v with s | n | b | _ | xs | flds
    · rw [hg] at hchar
      by_cases ht : jsTrim s = ""
      · simp only [strNormVal, ht, if_pos] at hchar
        simp [normStrField, hchar]
      · simp only [strNormVal, ht, if_neg, ite_false] at hchar
        have hidem : jsTrim (jsTrim s) = jsTrim s := jsTrim_idem s
        have hne : ¬jsTrim (jsTrim s) = "" := by rw [hidem]; exact ht
        have hstep : normStrField (normalizeFields nd fields) f =
            setJ (normalizeFields nd fields) f (.str (jsTrim (jsTrim s))) := by
          simp [normStrField, hchar, hne]
        rw [hstep, hidem]
        exact setJ_self _ f _ hchar
    · rw [hg] at hchar
      simp only [strNormVal] at hchar
      simp [normStrField, hchar]
    · rw [hg] at hchar
      simp only [strNormVal] at hchar
      simp [normStrField, hchar]
    · rw [hg] at hchar
      simp only [strNormVal] at hchar
      simp [normStrField, hchar]
    · rw [hg] at hchar
      simp only [strNormVal] at hchar
      simp [normStrField, hchar]
    · rw [hg] at hchar
      simp only [strNormVal] at hchar
      simp [normStrField, hchar]

theorem trimIfStr_idem (x : JVal) : trimIfStr (trimIfStr x) = trimIfStr x := by
  rcases x with s | n | b | _ | xs | flds
  · simp [trimIfStr, jsTrim_idem]
  · rfl
  · rfl
  · rfl
  · rfl
  · rfl

theorem normArrField_normalized (nd : String → Option String) (fields : RecordJ)
    (f : String) (hf : f ∈ arrayFields) :
    normArrField (normalizeFields nd fields) f = normalizeFields nd fields := by
  have hchar := getJ_normalizeFields_arrField nd fields f hf
  rcases hg : getJ fields f with _ | v
  · rw [hg] at hchar
    simp only [arrNormVal] at hchar
    simp [normArrField, hchar]
  · rcases v with s | n | b | _ | xs | flds
    · rw [hg] at hchar
      simp only [arrNormVal] at hchar
      simp [normArrField, hchar]
    · rw [hg] at hchar
      simp only [arrNormVal] at hchar
      simp [normArrField, hchar]
    · rw [hg] at hchar
      simp only [arrNormVal] at hchar
      simp [normArrField, hchar]
    · rw [hg] at hchar
      simp only [arrNormVal] at hchar
      simp [normArrField, hchar]
    · rw [hg] at hchar
      by_cases ht : ((xs.map trimIfStr).filter keepElem).length = 0
      · simp only [arrNormVal, ht, if_pos] at hchar
        simp [normArrField, hchar]
      · simp only [arrNormVal, ht, if_neg, ite_false] at hchar
        have hfix : ∀ y ∈ (xs.map trimIfStr).filter keepElem, trimIfStr y = y := by
          intro y hy
          rcases List.mem_map.mp (List.mem_filter.mp hy).1 with ⟨x, _, hx⟩
          rw [← hx]
          exact trimIfStr_idem x
        have hkeepAll : ∀ y ∈ (xs.map trimIfStr).filter keepElem,
            keepElem y = true := fun y hy => (List.mem_filter.mp hy).2
        have hmap : ((xs.map trimIfStr).filter keepElem).map trimIfStr =
            (xs.map trimIfStr).filter keepElem := by
          rw [List.map_congr_left hfix]
          exact List.map_id _
        have hfilter : ((xs.map trimIfStr).filter keepElem).filter keepElem =
            (xs.map trimIfStr).filter keepElem :=
          List.filter_eq_self.mpr hkeepAll
        have hstep : normArrField (normalizeFields nd fields) f =
            setJ (normalizeFields nd fields) f
              (.arr ((((xs.map trimIfStr).filter keepElem).map trimIfStr).filter
                keepElem)) := by
          simp [normArrField, hchar, hmap, hfilter, ht]
        rw [hstep, hmap, hfilter]
        exact setJ_self _ f _ hchar
    · rw [hg] at hchar
      simp only [arrNormVal] at hchar
      simp [normArrField, hchar]

theorem normDateField_idem (nd : String → Option String)
    (hnd : ∀ s c, nd s = some c → jsTrim c = c ∧ nd c = some c) (rec : RecordJ) :
    normDateField nd (normDateField nd rec) = normDateField nd rec := by
  rcases hg : getJ rec "publication_date" with _ | v
  · have hin : normDateField nd rec = rec := by simp [normDateField, hg]
    simp only [hin]
  · by_cases htr : truthy v = true
    · rcases hc : nd (jsTrim (jstr v)) with _ | canon
      · have hin : normDateField nd rec = rec := by simp [normDateField, hg, htr, hc]
        simp only [hin]
      · have hin : normDateField nd rec =
            setJ rec "publication_date" (.str canon) := by
          simp [normDateField, hg, htr, hc]
        rw [hin]
        obtain ⟨hcanon_trim, hcanon_nd⟩ := hnd _ canon hc
        have hg2 : getJ (setJ rec "publication_date" (.str canon))
            "publication_date" = some (.str canon) := getJ_setJ_same rec _ _
        by_cases hce : canon = ""
        · have hfalse : truthy (.str canon) = false := by simp [truthy, hce]
          simp [normDateField, hg2, hfalse]
        · have htr2 : truthy (.str canon) = true := by simp [truthy, hce]
          have hc2 : nd (jsTrim (jstr (.str canon))) = some canon := by
            show nd (jsTrim canon) = some canon
            rw [hcanon_trim]
            exact hcanon_nd
          have hout : normDateField nd (setJ rec "publication_date" (.str canon)) =
              setJ (setJ rec "publication_date" (.str canon)) "publication_date"
                (.str canon) := by
            simp [normDateField, hg2, htr2, hc2]
          rw [hout]
          exact setJ_self _ _ _ hg2
    · have hin : normDateField nd rec = rec := by simp [normDateField, hg, htr]
      simp only [hin]

theorem normalizeFields_idem (nd : String → Option String)
    (hnd : ∀ s c, nd s = some c → jsTrim c = c ∧ nd c = some c)
    (fields : RecordJ) :
    normalizeFields nd (normalizeFields nd fields) = normalizeFields nd fields := by
  have hstr : stringFields.foldl normStrField (normalizeFields nd fields) =
      normalizeFields nd fields :=
    foldl_id_of_fixed normStrField stringFields _
      fun f hf => normStrField_normalized nd fields f hf
  have harr : arrayFields.foldl normArrField (normalizeFields nd fields) =
      normalizeFields nd fields :=
    foldl_id_of_fixed normArrField arrayFields _
      fun f hf => normArrField_normalized nd fields f hf
  have hdate : normDateField nd (normalizeFields nd fields) =
      normalizeFields nd fields := by
    show normDateField nd (normDateField nd
      (arrayFields.foldl normArrField (stringFields.foldl normStrField fields))) =
      normalizeFields nd fields
    rw [normDateField_idem nd hnd]
    rfl
  show normDateField nd (arrayFields.foldl normArrField
    (stringFields.foldl normStrField (normalizeFields nd fields))) =
    normalizeFields nd fields
  rw [hstr, harr, hdate]

/-- C9: normalization is idempotent: feeding the normalized record back
through the normalizer changes nothing. The date canonicalizer is abstract;
the hypothesis states the property of `new Date`/`toISOString` it relies
on: a canonical date string is already trimmed and re-parses to itself. -/
theorem normalize_idempotent (nd : String → Option String)
    (hnd : ∀ s c, nd s = some c → jsTrim c = c ∧ nd c = some c) (v : JVal) :
    normalizeMetadata nd (.obj (normalizeMetadata nd v)) = normalizeMetadata nd v := by
  have hempty : normalizeFields nd [] = [] := rfl
  rcases v with s | n | b | _ | xs | fields
  · exact hempty
  · exact hempty
  · exact hempty
  · exact hempty
  · exact normalizeFields_idem nd hnd _
  · exact normalizeFields_idem nd hnd fields

/-- Witness for C9 with the never-parsing date canonicalizer (its roundtrip
hypothesis holds vacuously) at a concrete record. -/
theorem normalize_idempotent_witness :
    normalizeMetadata (fun _ => none)
      (.obj (normalizeMetadata (fun _ => none)
        (.obj [("title", .str " x "), ("keywords", .arr [.str "a", .str " "])]))) =
    normalizeMetadata (fun _ => none)
      (.obj [("title", .str " x "), ("keywords", .arr [.str "a", .str " "])]) :=
  normalize_idempotent (fun _ => none) (fun _ _ h => Option.noConfusion h) _

end MQ
